import Mathlib

/-!
Verification of the Icespeak Icelandic TTS front end (mideind/Icespeak).

This file gives a shallow embedding of the parts of the library that the
spec claims talk about:

* the pluralization helper `_is_plural` (src/icespeak/transcribe/__init__.py),
* the Icelandic numeral engine and year/time rendering
  (src/icespeak/transcribe/num.py is absent from the source tree, so those
  functions are modelled from the spec and pinned against the expected
  outputs recorded in src/tests/test_transcribe_num.py),
* the greynir-tag SSML parser (src/icespeak/parser.py),
* the `_transcribe_method` decorator (src/icespeak/transcribe/__init__.py),
* the LFU audio cache and the cached `text_to_speech` entry point
  (src/icespeak/tts.py, on top of the `cachetools` `LFUCache`/`cached`
  semantics).

Machine integers are modelled as `Nat`/`Int`; the `speed` float is modelled
as `ℚ` (only order comparisons against 0.5 and 2.0 are performed on it).
Fallible code returns `Except`.
-/

namespace Icespeak

/-! ### Decimal representation of Python integers

`str(num)` for a Python `int` is the plain decimal representation, with a
leading `-` for negative numbers.  We model it directly. -/

/-- Decimal digit list of `n`, most significant first; `fuel` bounds the
recursion (any `fuel > n` gives the true digits). -/
def natDigitsAux : Nat → Nat → List Char
  | 0, _ => []
  | fuel + 1, n =>
    if n < 10 then [Nat.digitChar n]
    else natDigitsAux fuel (n / 10) ++ [Nat.digitChar (n % 10)]

/-- Decimal digit list of `n`, most significant first (model of Python
`str` on a nonnegative `int`). -/
def natDigits (n : Nat) : List Char := natDigitsAux (n + 1) n

/-- Model of Python `str` on an `int`: decimal digits, `-`-prefixed when
negative. -/
def pyStrInt (n : Int) : List Char :=
  if n < 0 then '-' :: natDigits n.natAbs else natDigits n.natAbs

/-- Model of Python `str.endswith`: `t` is a suffix of `s`. -/
def pyEndsWith (s t : List Char) : Bool := t.isSuffixOf s

/-- Translation of `_is_plural` (transcribe/__init__.py lines 531-536),
on the decimal string `sn = str(num)`: a following word is plural unless
`sn` ends in "1" without ending in "11". -/
def is_plural_str (sn : List Char) : Bool :=
  !(pyEndsWith sn ['1'] && !pyEndsWith sn ['1', '1'])

/-- `_is_plural` applied to a Python `int` argument. -/
def is_plural_int (n : Int) : Bool := is_plural_str (pyStrInt n)

/-! Auxiliary facts about the decimal representation. -/

theorem natDigitsAux_fuel_irrel (f g n : Nat) (hf : n < f) (hg : n < g) :
    natDigitsAux f n = natDigitsAux g n := by
  induction f generalizing g n with
  | zero => omega
  | succ f ih =>
    cases g with
    | zero => omega
    | succ g =>
      simp only [natDigitsAux]
      by_cases h : n < 10
      · simp [h]
      · simp only [if_neg h]
        have hd : n / 10 < n := Nat.div_lt_self (by omega) (by omega)
        rw [ih g (n / 10) (by omega) (by omega)]

theorem natDigits_lt10 (n : Nat) (h : n < 10) :
    natDigits n = [Nat.digitChar n] := by
  simp [natDigits, natDigitsAux, h]

theorem natDigits_ge10 (n : Nat) (h : ¬ n < 10) :
    natDigits n = natDigits (n / 10) ++ [Nat.digitChar (n % 10)] := by
  have hd : n / 10 < n := Nat.div_lt_self (by omega) (by omega)
  simp only [natDigits, natDigitsAux, h, if_false]
  exact congrArg (· ++ [Nat.digitChar (n % 10)])
    (natDigitsAux_fuel_irrel n (n / 10 + 1) (n / 10) (by omega) (by omega))

theorem natDigits_ne_nil (n : Nat) : natDigits n ≠ [] := by
  by_cases h : n < 10
  · simp [natDigits_lt10 n h]
  · simp [natDigits_ge10 n h]

/-- The last decimal digit char of `n` is the digit char of `n % 10`. -/
theorem natDigits_getLast (n : Nat) :
    (natDigits n).getLast? = some (Nat.digitChar (n % 10)) := by
  by_cases h : n < 10
  · rw [natDigits_lt10 n h, Nat.mod_eq_of_lt h]
    rfl
  · rw [natDigits_ge10 n h]
    simp [List.getLast?_append]

theorem digitChar_eq_one_iff (d : Nat) (hd : d < 10) :
    Nat.digitChar d = '1' ↔ d = 1 := by
  interval_cases d <;> simp [Nat.digitChar]

/-- A single-character suffix test is a `getLast?` test. -/
theorem suffix_singleton_iff (l : List Char) (c : Char) :
    l.getLast? = some c ↔ [c].isSuffixOf l := by
  rw [List.isSuffixOf_iff_suffix]
  constructor
  · intro h
    rcases List.getLast?_eq_some_iff.mp h with ⟨l', rfl⟩
    exact List.suffix_append l' [c]
  · rintro ⟨l', rfl⟩
    exact List.getLast?_concat _

theorem suffix_pair_iff (l : List Char) (c d : Char) :
    [c, d].isSuffixOf l ↔ ∃ l', l = l' ++ [c, d] := by
  rw [List.isSuffixOf_iff_suffix]
  constructor
  · rintro ⟨l', rfl⟩; exact ⟨l', rfl⟩
  · rintro ⟨l', rfl⟩; exact ⟨l', rfl⟩

/-- Ends-in-"1" test for the decimal representation, arithmetically. -/
theorem pyEndsWith_one_iff (n : Nat) :
    pyEndsWith (natDigits n) ['1'] = true ↔ n % 10 = 1 := by
  unfold pyEndsWith
  rw [← suffix_singleton_iff, natDigits_getLast]
  have h10 : n % 10 < 10 := Nat.mod_lt _ (by omega)
  simp only [Option.some.injEq]
  exact digitChar_eq_one_iff (n % 10) h10

theorem concat_pair_suffix_iff (l : List Char) (a b c d : Char) :
    [a, b].isSuffixOf (l ++ [c, d]) = true ↔ a = c ∧ b = d := by
  rw [suffix_pair_iff]
  constructor
  · rintro ⟨l', he⟩
    have h2 := (List.append_inj' he (by simp)).2
    simp only [List.cons.injEq, and_true] at h2
    exact ⟨h2.1.symm, h2.2.symm⟩
  · rintro ⟨rfl, rfl⟩
    exact ⟨l, rfl⟩

theorem pyEndsWith_iff (s t : List Char) : pyEndsWith s t = true ↔ t <:+ s := by
  unfold pyEndsWith
  exact List.isSuffixOf_iff_suffix

theorem pyEndsWith_eq_false_iff (s t : List Char) :
    pyEndsWith s t = false ↔ ¬ t <:+ s := by
  constructor
  · intro h hs
    rw [(pyEndsWith_iff s t).mpr hs] at h
    simp at h
  · intro h
    cases hb : pyEndsWith s t with
    | false => rfl
    | true => exact absurd ((pyEndsWith_iff s t).mp hb) h

/-- Ends-in-"11" test for the decimal representation, arithmetically. -/
theorem pyEndsWith_eleven_iff (n : Nat) :
    pyEndsWith (natDigits n) ['1', '1'] = true ↔ n % 100 = 11 := by
  unfold pyEndsWith
  by_cases h : n < 10
  · rw [natDigits_lt10 n h]
    constructor
    · intro hs
      rcases (suffix_pair_iff _ _ _).mp hs with ⟨l', he⟩
      have := congrArg List.length he
      simp at this
    · intro h11
      omega
  · have hm : ¬ n / 10 = 0 := by omega
    rcases List.getLast?_eq_some_iff.mp (natDigits_getLast (n / 10)) with ⟨l, hl⟩
    have hsplit : natDigits n =
        l ++ [Nat.digitChar (n / 10 % 10), Nat.digitChar (n % 10)] := by
      rw [natDigits_ge10 n h, hl]
      simp
    rw [hsplit, concat_pair_suffix_iff]
    have h1 : n / 10 % 10 < 10 := Nat.mod_lt _ (by omega)
    have h2 : n % 10 < 10 := Nat.mod_lt _ (by omega)
    rw [eq_comm (a := ('1' : Char)), eq_comm (a := ('1' : Char)),
      digitChar_eq_one_iff _ h1, digitChar_eq_one_iff _ h2]
    omega

theorem natDigits_head_ne_minus (n : Nat) : '-' :: natDigits n ≠ natDigits n := by
  intro h
  have := congrArg List.length h
  simp at this

theorem pyStrInt_suffix_digits (n : Int) (t : List Char)
    (hlen : t.length ≤ (natDigits n.natAbs).length) :
    pyEndsWith (pyStrInt n) t = pyEndsWith (natDigits n.natAbs) t := by
  unfold pyStrInt
  by_cases h : n < 0
  · simp only [if_pos h]
    rw [Bool.eq_iff_iff, pyEndsWith_iff, pyEndsWith_iff]
    constructor
    · intro hs
      rcases List.suffix_cons_iff.mp hs with he | hs'
      · exfalso
        have := congrArg List.length he
        simp at this
        omega
      · exact hs'
    · intro hs
      exact hs.trans (List.suffix_cons '-' _)
  · simp [h]

theorem length_natDigits_pos (n : Nat) : 1 ≤ (natDigits n).length := by
  have := natDigits_ne_nil n
  cases hd : natDigits n with
  | nil => exact absurd hd this
  | cons a l => simp

theorem length_natDigits_ge_two (n : Nat) (h : ¬ n < 10) :
    2 ≤ (natDigits n).length := by
  rw [natDigits_ge10 n h]
  have := length_natDigits_pos (n / 10)
  simp
  omega

/-- The pluralization decision on a Python `int`, arithmetically:
singular exactly when the value ends in digit 1 but not in digits 11. -/
theorem is_plural_int_iff (n : Int) :
    is_plural_int n = false ↔ (n.natAbs % 10 = 1 ∧ n.natAbs % 100 ≠ 11) := by
  unfold is_plural_int is_plural_str
  have h1 : pyEndsWith (pyStrInt n) ['1'] = pyEndsWith (natDigits n.natAbs) ['1'] :=
    pyStrInt_suffix_digits n _ (by simpa using length_natDigits_pos n.natAbs)
  have hboth : ∀ l : List Char, l.length < 2 →
      pyEndsWith l ['1', '1'] = false := by
    intro l hl
    rw [pyEndsWith_eq_false_iff]
    intro hs
    have := hs.length_le
    simp at this
    omega
  have h2 : pyEndsWith (pyStrInt n) ['1', '1'] =
      pyEndsWith (natDigits n.natAbs) ['1', '1'] := by
    by_cases hle : 2 ≤ (natDigits n.natAbs).length
    · exact pyStrInt_suffix_digits n _ (by simpa using hle)
    · have hlt : n.natAbs < 10 := by
        by_contra hge
        exact hle (length_natDigits_ge_two _ hge)
      have hr : pyEndsWith (natDigits n.natAbs) ['1', '1'] = false := by
        refine hboth _ ?_
        rw [natDigits_lt10 _ hlt]
        simp
      rw [hr]
      unfold pyStrInt
      by_cases hn : n < 0
      · simp only [if_pos hn]
        rw [pyEndsWith_eq_false_iff]
        rw [natDigits_lt10 _ hlt]
        intro hs
        rcases List.suffix_cons_iff.mp hs with he | hs'
        · exact absurd (congrArg List.headI he) (by simp)
        · have := hs'.length_le
          simp at this
      · simp only [if_neg hn]
        refine hboth _ ?_
        rw [natDigits_lt10 _ hlt]
        simp
  rw [h1, h2]
  have hA := pyEndsWith_one_iff n.natAbs
  have hB := pyEndsWith_eleven_iff n.natAbs
  cases h1' : pyEndsWith (natDigits n.natAbs) ['1'] <;>
    cases h2' : pyEndsWith (natDigits n.natAbs) ['1', '1'] <;>
      rw [h1'] at hA <;> rw [h2'] at hB <;> simp at hA hB ⊢ <;> omega

/-- C3: for every number (integer, or the string representation that
`_is_plural` receives via `str`), the helper decides that a following word
is singular (returns `false`) exactly when the decimal representation ends
in "1" without ending in "11"; every other ending, including "11", is
decided plural. -/
theorem C3_pluralization_rule :
    (∀ sn : List Char, is_plural_str sn = false ↔
        (pyEndsWith sn ['1'] = true ∧ pyEndsWith sn ['1', '1'] = false)) ∧
    (∀ n : Int, is_plural_int n = false ↔
        (n.natAbs % 10 = 1 ∧ n.natAbs % 100 ≠ 11)) := by
  constructor
  · intro sn
    unfold is_plural_str
    cases h1 : pyEndsWith sn ['1'] <;> cases h2 : pyEndsWith sn ['1', '1'] <;> simp
  · exact is_plural_int_iff

/-! ### The Icelandic numeral engine (`icespeak.transcribe.num`)

The module `src/icespeak/transcribe/num.py` is not present in the source
tree; only its callers (`transcribe/__init__.py`) and its unit tests
(`src/tests/test_transcribe_num.py`) are.  The definitions in this section
are therefore modelled from the spec (section 4.1, "Numeral Grammar
Engine"), with the spec's ambiguous prose pinned against the expected
outputs recorded in the unit tests that are part of the source tree.
Only the nominative case is modelled (all claims use the default
nominative). -/

/-- Icelandic grammatical gender: masculine (kk), feminine (kvk),
neuter (hk). -/
inductive Gender
  | kk
  | kvk
  | hk
deriving DecidableEq

/-- Modelled from the spec: the 1-19 irregular-form lookup table of the
missing numeral module; gender affects only the terminal digit words 1-4. -/
def digitWord (g : Gender) : Nat → String
  | 1 => match g with | .kk => "einn" | .kvk => "ein" | .hk => "eitt"
  | 2 => match g with | .kk => "tveir" | .kvk => "tvær" | .hk => "tvö"
  | 3 => match g with | .kk => "þrír" | .kvk => "þrjár" | .hk => "þrjú"
  | 4 => match g with | .kk => "fjórir" | .kvk => "fjórar" | .hk => "fjögur"
  | 5 => "fimm"
  | 6 => "sex"
  | 7 => "sjö"
  | 8 => "átta"
  | 9 => "níu"
  | 10 => "tíu"
  | 11 => "ellefu"
  | 12 => "tólf"
  | 13 => "þrettán"
  | 14 => "fjórtán"
  | 15 => "fimmtán"
  | 16 => "sextán"
  | 17 => "sautján"
  | 18 => "átján"
  | 19 => "nítján"
  | _ => ""

/-- Modelled from the spec: the tens lookup table (20/30/…/90) of the
missing numeral module, indexed by the tens digit. -/
def tensWord : Nat → String
  | 2 => "tuttugu"
  | 3 => "þrjátíu"
  | 4 => "fjörutíu"
  | 5 => "fimmtíu"
  | 6 => "sextíu"
  | 7 => "sjötíu"
  | 8 => "áttatíu"
  | 9 => "níutíu"
  | _ => ""

/-- Modelled from the spec: long-scale unit nouns of the missing numeral
module, singular form, indexed by the 1000-power. -/
def scaleSingular : Nat → String
  | 1 => "þúsund"
  | 2 => "milljón"
  | 3 => "milljarður"
  | 4 => "billjón"
  | 5 => "billjarður"
  | 6 => "trilljón"
  | 7 => "trilljarður"
  | 8 => "kvadrilljón"
  | 9 => "kvadrilljarður"
  | 10 => "kvintilljón"
  | 11 => "kvintilljarður"
  | 12 => "sextilljón"
  | 13 => "sextilljarður"
  | 14 => "septilljón"
  | 15 => "septilljarður"
  | _ => "oktilljón"

/-- Modelled from the spec: long-scale unit nouns, plural form. -/
def scalePlural : Nat → String
  | 1 => "þúsund"
  | 2 => "milljónir"
  | 3 => "milljarðar"
  | 4 => "billjónir"
  | 5 => "billjarðar"
  | 6 => "trilljónir"
  | 7 => "trilljarðar"
  | 8 => "kvadrilljónir"
  | 9 => "kvadrilljarðar"
  | 10 => "kvintilljónir"
  | 11 => "kvintilljarðar"
  | 12 => "sextilljónir"
  | 13 => "sextilljarðar"
  | 14 => "septilljónir"
  | 15 => "septilljarðar"
  | _ => "oktilljónir"

/-- Modelled from the spec: each scale-unit noun has its own fixed gender
(þúsund neuter; -ljón words feminine; -ljarður words masculine), which
overrides the caller's requested gender for the digits before it. -/
def scaleGender : Nat → Gender
  | 1 => .hk
  | i => if i % 2 == 1 then .kk else .kvk

/-- Modelled from the spec: numbers 1-99, with an "X og Y" join
for 21-99. -/
def sub100 (g : Gender) (n : Nat) : String :=
  if n < 20 then digitWord g n
  else if n % 10 == 0 then tensWord (n / 10)
  else tensWord (n / 10) ++ " og " ++ digitWord g (n % 10)

/-- Modelled from the spec: numbers 1-999.  Hundreds use "N hundred
[og M]"; the "og" before the remainder appears when the remainder is a
single term (below 20 or a whole ten), as pinned by the unit tests
(`113305 → "eitt hundrað og þrettán þúsund þrjú hundruð og fimm"` but
`42178249 → "… eitt hundrað sjötíu og átta þúsund …"`).  When `bare` is
set (whole number in 100-199 without the one_hundred flag) the leading
"eitt" is dropped. -/
def sub1000 (g : Gender) (bare : Bool) (n : Nat) : String :=
  if n < 100 then sub100 g n
  else
    let h := n / 100
    let r := n % 100
    let hw :=
      if h == 1 then (if bare then "hundrað" else "eitt hundrað")
      else digitWord .hk h ++ " hundruð"
    if r == 0 then hw
    else if r < 20 || r % 10 == 0 then hw ++ " og " ++ sub100 g r
    else hw ++ " " ++ sub100 g r

/-- Base-1000 chunks of `n`, least significant first; `fuel` bounds the
recursion (any `fuel > n` gives the true chunks). -/
def chunksAux : Nat → Nat → List Nat
  | 0, _ => []
  | fuel + 1, n => if n == 0 then [] else n % 1000 :: chunksAux fuel (n / 1000)

/-- Base-1000 chunks of `n`, least significant first. -/
def chunks (n : Nat) : List Nat := chunksAux (n + 1) n

/-- Modelled from the spec: one rendered chunk; a chunk above scale index 0
carries its scale noun, singular exactly when the pluralization rule makes
the chunk value singular (ends in digit 1 but not 11), and its digits are
rendered in the scale noun's own gender. -/
def renderChunk (g : Gender) (idx c : Nat) : String :=
  if idx == 0 then sub1000 g false c
  else
    let noun :=
      if c % 10 == 1 && c % 100 != 11 then scaleSingular idx else scalePlural idx
    sub1000 (scaleGender idx) false c ++ " " ++ noun

/-- Modelled from the spec and pinned by the unit tests: the final chunk is
joined with "og" when it is a single round term (below 20, a whole ten, or
a whole hundred); otherwise chunks are space-joined. -/
def isRoundChunk (c : Nat) : Bool :=
  c < 20 || (c < 100 && c % 10 == 0) || c % 100 == 0

/-- Join rendered chunks (most significant first, paired with their raw
chunk value): space-separated, except that the last chunk may be joined
with " og " per `isRoundChunk`. -/
def joinParts : List (String × Nat) → String
  | [] => ""
  | [(s, _)] => s
  | [(s1, _), (s2, c2)] => s1 ++ (if isRoundChunk c2 then " og " else " ") ++ s2
  | (s, _) :: rest => s ++ " " ++ joinParts rest

/-- Modelled from the spec: `number_to_text` of the missing numeral module
on a nonnegative value, nominative case. -/
def numberToTextNat (g : Gender) (oneHundred : Bool) (n : Nat) : String :=
  if n == 0 then "núll"
  else if n < 1000 then sub1000 g (!oneHundred && n < 200) n
  else
    joinParts
      ((((chunks n).enum.filter (fun p => p.2 != 0)).map
          (fun p => (renderChunk g p.1 p.2, p.2))).reverse)

/-- Modelled from the spec: `number_to_text(n, case="nf", gender=g,
one_hundred=oneHundred)` of the missing numeral module; a leading minus
sign is rendered as a prefixed "mínus" word. -/
def number_to_text (g : Gender) (oneHundred : Bool) (n : Int) : String :=
  if n < 0 then "mínus " ++ numberToTextNat g oneHundred n.natAbs
  else numberToTextNat g oneHundred n.natAbs

/-- Modelled from the spec: `number_to_neutral` of the missing numeral
module (neuter nominative, default one_hundred). -/
def number_to_neutral (n : Int) : String := number_to_text .hk false n

/-- Model of Python `" ".join(t)`. -/
def pyJoinSpace : List String → String
  | [] => ""
  | [s] => s
  | s :: rest => s ++ " " ++ pyJoinSpace rest

/-- Modelled from the spec: `year_to_text` of the missing numeral module.
Years 1100-1999 are read as two two-digit groups; all other years use
plain cardinal rendering, with a "fyrir okkar tímatal" (before our era)
suffix for negative years.  Pinned by `test_year_to_text` in the source
tree. -/
def year_to_text (y : Int) : String :=
  let base :=
    if 1100 ≤ y ∧ y < 2000 then
      numberToTextNat .hk false (y.toNat / 100) ++ " hundruð" ++
        (if y.toNat % 100 == 0 then ""
         else " " ++ numberToTextNat .hk false (y.toNat % 100))
    else numberToTextNat .hk false y.natAbs
  if y < 0 then base ++ " fyrir okkar tímatal" else base

/-- Translation of `_time_to_text` (transcribe/__init__.py lines 462-497),
the body shared with `DefaultTranscriber.time`: midnight/noon/night
special cases, zero-padding word "núll" for minutes and seconds below 10,
and a disambiguating suffix. -/
def timeToText (hour minute : Nat) (second : Option Nat) : String :=
  let hs : Nat × Option String :=
    if hour == 0 && minute == 0 then (12, some "á miðnætti")
    else if hour ≤ 5 then (hour, some "um nótt")
    else if hour == 12 && minute == 0 then (hour, some "á hádegi")
    else (hour, none)
  let t1 := [numberToTextNat .hk false hs.1]
  let t2 :=
    if 0 < minute then
      t1 ++ (if minute < 10 then ["núll"] else []) ++
        [numberToTextNat .hk false minute]
    else t1
  let t3 :=
    match second with
    | some s =>
      if 0 < s then
        t2 ++ (if s < 10 then ["núll"] else []) ++ [numberToTextNat .hk false s]
      else t2
    | none => t2
  let t4 :=
    match hs.2 with
    | some sfx => t3 ++ [sfx]
    | none => t3
  pyJoinSpace t4

/-- Selected expected outputs from `src/tests/test_transcribe_num.py` and
`src/tests/test_transcribe.py`, pinning the modelled numeral engine to the
behaviour recorded in the source tree. -/
theorem num_engine_matches_unit_tests :
    number_to_neutral 0 = "núll" ∧
    number_to_neutral 101 = "hundrað og eitt" ∧
    number_to_neutral 1100 = "eitt þúsund og eitt hundrað" ∧
    number_to_neutral (-42178249) =
      "mínus fjörutíu og tvær milljónir eitt hundrað sjötíu og átta þúsund tvö hundruð fjörutíu og níu" ∧
    number_to_text .kk false 101 = "hundrað og einn" ∧
    number_to_text .kvk false 10001 = "tíu þúsund og ein" ∧
    number_to_text .kk false 113305 =
      "eitt hundrað og þrettán þúsund þrjú hundruð og fimm" ∧
    number_to_neutral 19501180 =
      "nítján milljónir fimm hundruð og eitt þúsund eitt hundrað og áttatíu" ∧
    number_to_neutral 1010101010101010 =
      "einn billjarður tíu billjónir eitt hundrað og einn milljarður tíu milljónir eitt hundrað og eitt þúsund og tíu" ∧
    year_to_text 1001 = "eitt þúsund og eitt" ∧
    year_to_text 57 = "fimmtíu og sjö" ∧
    year_to_text 2401 = "tvö þúsund fjögur hundruð og eitt" ∧
    timeToText 3 3 (some 3) = "þrjú núll þrjú núll þrjú um nótt" := by
  decide

theorem pyJoinSpace_concat (l : List String) (x : String) :
    ∃ p, pyJoinSpace (l ++ [x]) = p ++ x := by
  induction l with
  | nil => exact ⟨"", rfl⟩
  | cons s rest ih =>
    cases rest with
    | nil => exact ⟨s ++ " ", rfl⟩
    | cons a t =>
      rcases ih with ⟨p, hp⟩
      refine ⟨s ++ " " ++ p, ?_⟩
      show s ++ " " ++ pyJoinSpace ((a :: t) ++ [x]) = s ++ " " ++ p ++ x
      rw [hp]
      simp [String.append_assoc]

/-- C4: time-of-day transcription renders "00:00" exactly as
"tólf á miðnætti" and "12:00" exactly as "tólf á hádegi", and every time
from 00:01 through 05:59 carries the "um nótt" (during the night) marker
in its output. -/
theorem C4_time_special_cases :
    timeToText 0 0 none = "tólf á miðnætti" ∧
    timeToText 12 0 none = "tólf á hádegi" ∧
    (∀ h m : Nat, h ≤ 5 → m ≤ 59 → ¬(h = 0 ∧ m = 0) →
      ∃ p, timeToText h m none = p ++ "um nótt") := by
  refine ⟨by decide, by decide, ?_⟩
  intro h m hh hm hne
  have hc1 : (h == 0 && m == 0) = false := by
    by_cases h0 : h = 0
    · have m0 : m ≠ 0 := fun hm0 => hne ⟨h0, hm0⟩
      simp [h0, m0]
    · simp [h0]
  simp only [timeToText, hc1, Bool.false_eq_true, if_false, if_pos hh]
  exact pyJoinSpace_concat _ _

/-- C4 witness: a concrete night-time instance, via the theorem. -/
theorem C4_time_special_cases_witness :
    ∃ p, timeToText 4 45 none = p ++ "um nótt" :=
  C4_time_special_cases.2.2 4 45 (by omega) (by omega) (by omega)

/-- C5: years 1100-1999 are read as two two-digit groups; every other
year uses plain cardinal rendering; every negative year's output ends
with the "fyrir okkar tímatal" (before our era) suffix. -/
theorem C5_year_rendering :
    year_to_text 1999 = "nítján hundruð níutíu og níu" ∧
    year_to_text 2004 = "tvö þúsund og fjögur" ∧
    year_to_text (-501) = "fimm hundruð og eitt fyrir okkar tímatal" ∧
    (∀ y : Int, 1100 ≤ y → y < 2000 →
      year_to_text y =
        numberToTextNat .hk false (y.toNat / 100) ++ " hundruð" ++
          (if y.toNat % 100 == 0 then ""
           else " " ++ numberToTextNat .hk false (y.toNat % 100))) ∧
    (∀ y : Int, ¬ (1100 ≤ y ∧ y < 2000) →
      year_to_text y =
        numberToTextNat .hk false y.natAbs ++
          (if y < 0 then " fyrir okkar tímatal" else "")) ∧
    (∀ y : Int, y < 0 →
      pyEndsWith (year_to_text y).data " fyrir okkar tímatal".data = true) := by
  refine ⟨by decide, by decide, by decide, ?_, ?_, ?_⟩
  · intro y h1 h2
    have hy : ¬ y < 0 := by omega
    simp [year_to_text, h1, h2, hy]
  · intro y hrange
    by_cases hy : y < 0
    · simp [year_to_text, hrange, hy]
    · simp [year_to_text, hrange, hy]
  · intro y hy
    have hbase : ∃ b, year_to_text y = b ++ " fyrir okkar tímatal" := by
      unfold year_to_text
      rw [if_pos hy]
      exact ⟨_, rfl⟩
    rcases hbase with ⟨b, hb⟩
    rw [hb, pyEndsWith_iff]
    have : (b ++ " fyrir okkar tímatal").data =
        b.data ++ " fyrir okkar tímatal".data := String.data_append _ _
    rw [this]
    exact List.suffix_append _ _

/-- C5 witness: the theorem's universally quantified parts applied at
concrete years. -/
theorem C5_year_rendering_witness :
    (year_to_text 1985 =
      numberToTextNat .hk false ((1985 : Int).toNat / 100) ++ " hundruð" ++
        (if (1985 : Int).toNat % 100 == 0 then ""
         else " " ++ numberToTextNat .hk false ((1985 : Int).toNat % 100))) ∧
    (year_to_text 2024 =
      numberToTextNat .hk false (2024 : Int).natAbs ++
        (if (2024 : Int) < 0 then " fyrir okkar tímatal" else "")) ∧
    pyEndsWith (year_to_text (-44)).data " fyrir okkar tímatal".data = true :=
  ⟨C5_year_rendering.2.2.2.1 1985 (by decide) (by decide),
   C5_year_rendering.2.2.2.2.1 2024 (by decide),
   C5_year_rendering.2.2.2.2.2 (-44) (by decide)⟩

/-! ### The `_transcribe_method` decorator
(transcribe/__init__.py lines 539-555) -/

/-- Translation of the `_inner` wrapper produced by `_transcribe_method`:
`out = ""`, and the wrapped function runs only when `txt != ""`.  The
`Bool` component records whether the underlying transformation function
was invoked. -/
def transcribe_method {α : Type} (f : String → α → String)
    (txt : String) (kwargs : α) : String × Bool :=
  if txt != "" then (f txt kwargs, true) else ("", false)

/-- C10: every transcription method wrapped by `_transcribe_method`
returns "" on the empty string without invoking the underlying
transformation function, regardless of the other keyword arguments; on a
non-empty string it returns the underlying function's result. -/
theorem C10_empty_string_short_circuit :
    (∀ (α : Type) (f : String → α → String) (kwargs : α),
      transcribe_method f "" kwargs = ("", false)) ∧
    (∀ (α : Type) (f : String → α → String) (txt : String) (kwargs : α),
      txt ≠ "" → transcribe_method f txt kwargs = (f txt kwargs, true)) := by
  constructor
  · intro α f kwargs
    rfl
  · intro α f txt kwargs h
    have : (txt != "") = true := by
      simpa using h
    simp [transcribe_method, this]

/-- C10 witness: the theorem applied to a concrete wrapped function. -/
theorem C10_empty_string_short_circuit_witness :
    transcribe_method (fun s (_ : Unit) => s ++ "!") "" () = ("", false) ∧
    transcribe_method (fun s (_ : Unit) => s ++ "!") "a" () = ("a!", true) :=
  ⟨C10_empty_string_short_circuit.1 Unit _ (),
   C10_empty_string_short_circuit.2 Unit _ "a" () (by decide)⟩

/-! ### The greynir-tag SSML parser (src/icespeak/parser.py)

`GreynirSSMLParser` inherits Python's `html.parser.HTMLParser`, which is
external to the repository: it turns the input string into a stream of
start-tag / data / end-tag / self-closing-tag events (character and
entity references are resolved into data, `convert_charrefs` default).
We embed the parser at that event level: an input is a list of events,
and the repository's handler methods (`handle_starttag`, `handle_data`,
`handle_endtag`, `handle_startendtag`) and `transcribe` are translated
over the event stream. -/

/-- One event delivered by the underlying HTML parser. -/
inductive GEvent
  | starttag (tag : String) (attrs : List (String × Option String))
  | dataev (s : String)
  | endtag (tag : String)
  | startendtag (tag : String) (attrs : List (String × Option String))

/-- Python exceptions the handlers can raise. -/
inductive PErr
  | assertionError
  | keyError
  | typeError
  | valueError
  | attributeError
  | indexError
deriving DecidableEq

/-- A transcription method as invoked by the parser: `none` as first
argument models a self-closing tag (no positional text argument is
passed), `some s` the popped tag content; the list holds the remaining
attributes, passed as keyword arguments. -/
def TMethod : Type :=
  Option String → List (String × Option String) → Except PErr String

/-- A transcriber, as the parser sees it: the `danger_symbols` data
filter plus the name-to-method lookup performed by `getattr` together
with the `ismethod` assertion (`none` covers both a missing attribute
and a non-method attribute). -/
structure Transcriber where
  dangerSymbols : String → String
  lookup : String → Option TMethod

/-- Parser instance state: `_str_stack` and `_attr_stack` (deques in the
source; the head of each list is the top of the stack). -/
structure PState where
  strStack : List String
  attrStack : List (List (String × Option String))
deriving DecidableEq

/-- The freshly constructed parser (`__init__` creates empty deques). -/
def PState.init : PState := ⟨[], []⟩

/-- Model of Python `dict(attrs)`: last value wins per key, first
occurrence determines position. -/
def dictOfAttrs (attrs : List (String × Option String)) :
    List (String × Option String) :=
  attrs.foldl
    (fun acc kv =>
      if acc.any (fun p => p.1 == kv.1) then
        acc.map (fun p => if p.1 == kv.1 then (p.1, kv.2) else p)
      else acc ++ [kv])
    []

/-- Translation of `handle_starttag`: a greynir start tag pushes a fresh
buffer and its attribute dict; all other tags are ignored. -/
def handleStarttag (st : PState) (tag : String)
    (attrs : List (String × Option String)) : PState :=
  if tag == "greynir" then
    ⟨"" :: st.strStack, dictOfAttrs attrs :: st.attrStack⟩
  else st

/-- Translation of `handle_data`: the danger-symbol-filtered data is
appended to the top buffer (an empty stack would be an IndexError in the
source; it is unreachable from `transcribe`). -/
def handleData (T : Transcriber) (st : PState) (s : String) :
    Except PErr PState :=
  match st.strStack with
  | [] => .error .indexError
  | top :: rest => .ok ⟨(top ++ T.dangerSymbols s) :: rest, st.attrStack⟩

/-- Translation of `handle_endtag`: pop the buffer; if an attribute dict
is available, pop it, require a non-empty `type` attribute, look up and
run the corresponding transcription method; then append the result to
the new top buffer (or re-push it if the stack emptied). -/
def handleEndtag (T : Transcriber) (st : PState) (tag : String) :
    Except PErr PState :=
  if tag == "greynir" then
    match st.strStack with
    | [] => .error .indexError
    | s :: rest =>
      let transcribed :
          Except PErr (String × List (List (String × Option String))) :=
        match st.attrStack with
        | [] => .ok (s, [])
        | dattrs :: arest =>
          match List.lookup "type" dattrs with
          | none => .error .keyError
          | some none => .error .assertionError
          | some (some ty) =>
            if ty == "" then .error .assertionError
            else
              match T.lookup ty with
              | none => .error .attributeError
              | some m =>
                match m (some s) (dattrs.filter (fun p => p.1 != "type")) with
                | .error e => .error e
                | .ok s' => .ok (s', arest)
      match transcribed with
      | .error e => .error e
      | .ok (s', arest) =>
        match rest with
        | [] => .ok ⟨[s'], arest⟩
        | top :: r2 => .ok ⟨(top ++ s') :: r2, arest⟩
  else .ok st

/-- Translation of `handle_startendtag`: a self-closing greynir tag is
transcribed in place (the method is called without a positional text
argument) and appended to the top buffer. -/
def handleStartendtag (T : Transcriber) (st : PState) (tag : String)
    (attrs : List (String × Option String)) : Except PErr PState :=
  if tag == "greynir" then
    let dattrs := dictOfAttrs attrs
    match List.lookup "type" dattrs with
    | none => .error .keyError
    | some none => .error .assertionError
    | some (some ty) =>
      if ty == "" then .error .assertionError
      else
        match T.lookup ty with
        | none => .error .attributeError
        | some m =>
          match m none (dattrs.filter (fun p => p.1 != "type")) with
          | .error e => .error e
          | .ok s =>
            match st.strStack with
            | [] => .error .indexError
            | top :: rest => .ok ⟨(top ++ s) :: rest, st.attrStack⟩
  else .ok st

/-- Dispatch one event to its handler. -/
def stepEvent (T : Transcriber) (st : PState) : GEvent → Except PErr PState
  | .starttag tag attrs => .ok (handleStarttag st tag attrs)
  | .dataev s => handleData T st s
  | .endtag tag => handleEndtag T st tag
  | .startendtag tag attrs => handleStartendtag T st tag attrs

/-- Feed a stream of events (`self.feed`); stops at the first raised
exception, returning the state reached so far. -/
def feedEvents (T : Transcriber) : PState → List GEvent → PState × Option PErr
  | st, [] => (st, none)
  | st, e :: evs =>
    match stepEvent T st e with
    | .error err => (st, some err)
    | .ok st' => feedEvents T st' evs

/-- Model of Python `str.upper` on a single character, for the alphabet
the transcriber emits (ASCII plus the Icelandic letters). -/
def pyUpperChar (c : Char) : Char :=
  if c = 'á' then 'Á'
  else if c = 'é' then 'É'
  else if c = 'í' then 'Í'
  else if c = 'ó' then 'Ó'
  else if c = 'ú' then 'Ú'
  else if c = 'ý' then 'Ý'
  else if c = 'ð' then 'Ð'
  else if c = 'þ' then 'Þ'
  else if c = 'æ' then 'Æ'
  else if c = 'ö' then 'Ö'
  else c.toUpper

/-- Model of `out[0].upper() + out[1:] if out else out`. -/
def pyUpper1 (s : String) : String :=
  match s.data with
  | [] => s
  | c :: rest => ⟨pyUpperChar c :: rest⟩

/-- The stack state set up at the start of every `transcribe` call:
`_str_stack` cleared and seeded with one empty buffer, `_attr_stack`
cleared. -/
def initFeedState : PState := ⟨[""], []⟩

/-- Translation of `GreynirSSMLParser.transcribe` (parser.py lines
116-133): reset the stacks (whatever state the instance was left in),
feed all events, assert that exactly one buffer remains, and return it
with its first character capitalized.  The returned state is the
instance state after the call. -/
def transcribeFrom (T : Transcriber) (prior : PState) (evs : List GEvent) :
    Except PErr String × PState :=
  let r := feedEvents T initFeedState evs
  match prior, r with
  | _, (s, some e) => (.error e, s)
  | _, (s, none) =>
    match s.strStack with
    | [a] => (.ok (pyUpper1 a), s)
    | _ => (.error .assertionError, s)

/-- C1: whenever `transcribe` returns a string, exactly one buffer
remained on the stack after all input was consumed; whenever the final
buffer count differs from one, `transcribe` raises the fatal parse error
instead of returning anything — in particular for a greynir vbreak tag
that is never closed. -/
theorem C1_one_buffer_or_error :
    (∀ (T : Transcriber) (prior : PState) (evs : List GEvent) (out : String),
      (transcribeFrom T prior evs).1 = .ok out →
      (transcribeFrom T prior evs).2.strStack.length = 1) ∧
    (∀ (T : Transcriber) (prior : PState) (evs : List GEvent),
      (feedEvents T initFeedState evs).2 = none →
      (feedEvents T initFeedState evs).1.strStack.length ≠ 1 →
      (transcribeFrom T prior evs).1 = .error .assertionError) ∧
    (∀ (T : Transcriber) (prior : PState),
      (transcribeFrom T prior
          [.starttag "greynir" [("type", some "vbreak")]]).1
        = .error .assertionError) := by
  refine ⟨?_, ?_, ?_⟩
  · intro T prior evs out h
    rcases hr : feedEvents T initFeedState evs with ⟨s, err⟩
    cases err with
    | some e =>
      simp only [transcribeFrom, hr] at h
      exact absurd h (by simp)
    | none =>
      simp only [transcribeFrom, hr] at h ⊢
      cases hss : s.strStack with
      | nil =>
        rw [hss] at h
        exact absurd h (by simp)
      | cons a tl =>
        cases tl with
        | nil =>
          rw [hss]
          simp [hss]
        | cons b tl2 =>
          rw [hss] at h
          exact absurd h (by simp)
  · intro T prior evs hnone hlen
    rcases hr : feedEvents T initFeedState evs with ⟨s, err⟩
    rw [hr] at hnone hlen
    simp only at hnone hlen
    subst hnone
    simp only [transcribeFrom, hr]
    cases hss : s.strStack with
    | nil => rfl
    | cons a tl =>
      cases tl with
      | nil =>
        rw [hss] at hlen
        simp at hlen
      | cons b tl2 => rfl
  · intro T prior
    rfl

/-- C1 witness: the theorem applied at concrete inputs — a balanced
input that returns with one buffer, an unbalanced one that raises. -/
theorem C1_one_buffer_or_error_witness :
    (transcribeFrom
        (Transcriber.mk id (fun _ => none)) PState.init
        [.dataev "halló"]).2.strStack.length = 1 ∧
    (transcribeFrom
        (Transcriber.mk id (fun _ => none)) PState.init
        [.starttag "greynir" [("type", some "vbreak")]]).1
      = .error .assertionError :=
  ⟨C1_one_buffer_or_error.1 (Transcriber.mk id (fun _ => none)) PState.init
      [.dataev "halló"] "Halló" (by rfl),
   C1_one_buffer_or_error.2.2 (Transcriber.mk id (fun _ => none)) PState.init⟩

/-! ### The default transcriber's methods

Translation of `DefaultTranscriber` (transcribe/__init__.py) for the
methods the claims exercise.  Methods that delegate to the missing
numeral module (`number`, `digits`, `phone`, `year`, `time`) use the
spec-modelled engine above and are restricted to the nominative case and
to full-string matches, which is all the claims visit; methods that need
the external lexica (abbrev, currency, unit, person, …) are not embedded. -/

/-- Does `pat` start the list `l`? -/
def startsWithList : List Char → List Char → Bool
  | [], _ => true
  | _ :: _, [] => false
  | p :: ps, c :: cs => p == c && startsWithList ps cs

/-- Model of Python `str.replace`: left-to-right, non-overlapping; `fuel`
bounds the recursion (`length + 1` always suffices for non-empty
patterns). -/
def replaceAux (pat rep : List Char) : Nat → List Char → List Char
  | 0, l => l
  | _ + 1, [] => []
  | fuel + 1, c :: rest =>
    if startsWithList pat (c :: rest) then
      rep ++ replaceAux pat rep fuel ((c :: rest).drop pat.length)
    else c :: replaceAux pat rep fuel rest

/-- Model of Python `str.replace` on `String`. -/
def pyReplace (s pat rep : String) : String :=
  ⟨replaceAux pat.data rep.data (s.data.length + 1) s.data⟩

/-- Translation of `DefaultTranscriber.danger_symbols` (lines 598-613):
sequentially replace `&`, `<=`, `<`, `>=`, `>` with their spoken-word
equivalents. -/
def danger_symbols (txt : String) : String :=
  pyReplace
    (pyReplace
      (pyReplace
        (pyReplace
          (pyReplace txt "&" " og ")
          "<=" " minna eða jafnt og ")
        "<" " minna en ")
      ">=" " stærra eða jafnt og ")
    ">" " stærra en "

/-- Digit-string to `Nat` (`none` unless all characters are decimal
digits and the string is non-empty). -/
def parseDigits (l : List Char) : Option Nat :=
  if l.isEmpty then none
  else if l.all (fun c => c.isDigit) then
    some (l.foldl (fun acc c => acc * 10 + (c.toNat - 48)) 0)
  else none

/-- Model of Python `int(txt)` on plain decimal literals. -/
def pyInt (s : String) : Option Int :=
  match s.data with
  | '-' :: rest => (parseDigits rest).map (fun n => -(n : Int))
  | l => (parseDigits l).map (fun n => (n : Int))

def parseGender (s : String) : Option Gender :=
  if s == "kk" then some .kk
  else if s == "kvk" then some .kvk
  else if s == "hk" then some .hk
  else none

/-- Keyword argument `k` with default `dflt`; a `none` result models a
`None` attribute value having been passed. -/
def attrOr (attrs : List (String × Option String)) (k dflt : String) :
    Option String :=
  match List.lookup k attrs with
  | none => some dflt
  | some v => v

/-- Translation of `DefaultTranscriber.number`: parse the text as an
integer and render it (nominative only; `one_hundred` arrives as the
literal string "True" per `_bool_args`). -/
def numberMethod : TMethod := fun txt attrs =>
  match txt with
  | none => .error .typeError
  | some s =>
    if s == "" then .ok ""
    else if !attrs.all
        (fun p => p.1 == "case" || p.1 == "gender" || p.1 == "one_hundred") then
      .error .typeError
    else
      match attrOr attrs "case" "nf", attrOr attrs "gender" "hk",
          attrOr attrs "one_hundred" "False" with
      | some cs, some gs, some ohs =>
        if cs != "nf" then .error .valueError
        else
          match parseGender gs, pyInt s with
          | some g, some n => .ok (number_to_text g (ohs == "True") n)
          | _, _ => .error .valueError
      | _, _, _ => .error .typeError

/-- Modelled from the spec: digit-by-digit spelling (`digits_to_text` of
the missing numeral module), restricted to all-digit strings; digits are
spoken in the masculine ("einn einn tveir" per the unit tests). -/
def digits_to_text (s : String) : String :=
  if !s.data.isEmpty && s.data.all (fun c => c.isDigit) then
    pyJoinSpace (s.data.map
      (fun c => if c == '0' then "núll" else digitWord .kk (c.toNat - 48)))
  else s

/-- Translation of `DefaultTranscriber.digits`. -/
def digitsMethod : TMethod := fun txt attrs =>
  match txt with
  | none => .error .typeError
  | some s =>
    if s == "" then .ok ""
    else if !attrs.isEmpty then .error .typeError
    else .ok (digits_to_text s)

/-- Translation of `DefaultTranscriber.phone`: digits, with "+" replaced
by "plús ". -/
def phoneMethod : TMethod := fun txt attrs =>
  match txt with
  | none => .error .typeError
  | some s =>
    if s == "" then .ok ""
    else if !attrs.isEmpty then .error .typeError
    else .ok (pyReplace (digits_to_text s) "+" "plús ")

/-- Split a character list on a separator character. -/
def splitOnChar (sep : Char) (l : List Char) : List (List Char) :=
  l.foldr
    (fun c acc =>
      match acc with
      | [] => [[c]]
      | cur :: rest => if c == sep then [] :: cur :: rest else (c :: cur) :: rest)
    [[]]

/-- Parse a full-string `H:MM` or `H:MM:SS` time expression (the
`_TIME_REGEX` hour has 1-2 digits, minutes and seconds exactly two). -/
def parseTimeString (s : String) : Option (Nat × Nat × Option Nat) :=
  match splitOnChar ':' s.data with
  | [h, m] =>
    if h.length ≥ 1 && h.length ≤ 2 && m.length == 2 then
      match parseDigits h, parseDigits m with
      | some hv, some mv => some (hv, mv, none)
      | _, _ => none
    else none
  | [h, m, sec] =>
    if h.length ≥ 1 && h.length ≤ 2 && m.length == 2 && sec.length == 2 then
      match parseDigits h, parseDigits m, parseDigits sec with
      | some hv, some mv, some sv => some (hv, mv, some sv)
      | _, _, _ => none
    else none
  | _ => none

/-- Translation of `DefaultTranscriber.time` (lines 736-788), restricted
to inputs that are exactly one time expression (other text is left
unchanged, as when the regex finds no match). -/
def timeMethod : TMethod := fun txt attrs =>
  match txt with
  | none => .error .typeError
  | some s =>
    if s == "" then .ok ""
    else if !attrs.isEmpty then .error .typeError
    else
      match parseTimeString s with
      | some (h, m, sec) => .ok (timeToText h m sec)
      | none => .ok s

/-- Translation of `DefaultTranscriber.year` (lines 818-822): delegate to
`year_to_text`. -/
def yearMethod : TMethod := fun txt attrs =>
  match txt with
  | none => .error .typeError
  | some s =>
    if s == "" then .ok ""
    else if !attrs.isEmpty then .error .typeError
    else
      match pyInt s with
      | some y => .ok (year_to_text y)
      | none => .error .valueError

def VBREAK_STRENGTHS : List String :=
  ["none", "x-weak", "weak", "medium", "strong", "x-strong"]

/-- Translation of `DefaultTranscriber.vbreak` (lines 1311-1319): not
wrapped by `_transcribe_method`; tag content, when present, binds to the
positional `time` parameter; a non-empty time gives a timed break, a
strength must belong to `VBREAK_STRENGTHS`, and the bare form is
`<break />`. -/
def vbreakMethod : TMethod := fun txt attrs =>
  if txt.isSome && (List.lookup "time" attrs).isSome then .error .typeError
  else if !attrs.all (fun p => p.1 == "time" || p.1 == "strength") then
    .error .typeError
  else
    let tval : String :=
      match txt with
      | some s => s
      | none =>
        match List.lookup "time" attrs with
        | some (some t) => t
        | _ => ""
    let sval : String :=
      match List.lookup "strength" attrs with
      | some (some st) => st
      | _ => ""
    if tval != "" then .ok ("<break time=\"" ++ tval ++ "\" />")
    else if sval != "" then
      if VBREAK_STRENGTHS.contains sval then
        .ok ("<break strength=\"" ++ sval ++ "\" />")
      else .error .assertionError
    else .ok "<break />"

/-- Translation of `DefaultTranscriber.paragraph`. -/
def paragraphMethod : TMethod := fun txt attrs =>
  match txt with
  | none => .error .typeError
  | some s =>
    if s == "" then .ok ""
    else if !attrs.isEmpty then .error .typeError
    else .ok ("<p>" ++ s ++ "</p>")

/-- Translation of `DefaultTranscriber.sentence`. -/
def sentenceMethod : TMethod := fun txt attrs =>
  match txt with
  | none => .error .typeError
  | some s =>
    if s == "" then .ok ""
    else if !attrs.isEmpty then .error .typeError
    else .ok ("<s>" ++ s ++ "</s>")

/-- Modelled from the spec: the fractional part of a float.  Leading zeros
are each spoken as "núll"; what remains is read as a cardinal when it has
at most two digits, and digit by digit (in the requested gender)
otherwise, as pinned by `test_float_to_text` / `test_floats_to_text`
("0,04" → "núll fjögur", "0,12" → "tólf", "21,123" → "tuttugu og einn
komma einn tveir þrír", "101,0021" → "… komma núll núll tuttugu og
eitt"). -/
def fracPartText (g : Gender) (frac : List Char) : String :=
  let z := (frac.takeWhile (fun c => c == '0')).length
  let rest := frac.drop z
  if !rest.isEmpty && rest.length ≤ 2 then
    pyJoinSpace (List.replicate z "núll" ++
      [numberToTextNat g false
        (rest.foldl (fun a c => a * 10 + (c.toNat - 48)) 0)])
  else
    pyJoinSpace (frac.map
      (fun c => if c == '0' then "núll" else digitWord g (c.toNat - 48)))

/-- Parse a plain decimal literal `[-]digits[(.|,)digits]` into sign,
whole part and fractional digit list (model restriction: no thousands
separators, so at most one of "." and "," occurs). -/
def parseFloatParts (s : String) : Option (Bool × Nat × List Char) :=
  let p : Bool × List Char :=
    match s.data with
    | '-' :: rest => (true, rest)
    | l => (false, l)
  let parts : Option (List Char × List Char) :=
    match splitOnChar '.' p.2 with
    | [w, f] => if p.2.contains ',' then none else some (w, f)
    | [w] =>
      match splitOnChar ',' w with
      | [w2, f] => some (w2, f)
      | [w2] => some (w2, [])
      | _ => none
    | _ => none
  match parts with
  | some (w, f) =>
    match parseDigits w with
    | some wv =>
      if f.isEmpty then some (p.1, wv, [])
      else if f.all (fun c => c.isDigit) then some (p.1, wv, f)
      else none
    | none => none
  | none => none

/-- Modelled from the spec: `float_to_text` of the missing numeral module
(nominative), restricted to plain decimal literals.  The value is split on
the decimal separator; a zero fractional part is dropped unless the
comma-null flag requests an explicit "komma núll"; otherwise the whole
part, "komma" and the fractional rendering are joined, with a "mínus"
word for a leading minus sign.  Pinned by `test_float_to_text`. -/
def float_to_text (g : Gender) (oneHundred commaNull : Bool) (s : String) :
    Option String :=
  match parseFloatParts s with
  | none => none
  | some (neg, whole, frac) =>
    let intPart := numberToTextNat g oneHundred whole
    let body :=
      if frac.isEmpty || frac.all (fun c => c == '0') then
        if commaNull then intPart ++ " komma núll" else intPart
      else intPart ++ " komma " ++ fracPartText g frac
    some (if neg then "mínus " ++ body else body)

/-- Translation of `DefaultTranscriber.float` (nominative only; the
boolean attributes arrive as the literal string "True" per
`_bool_args`). -/
def floatMethod : TMethod := fun txt attrs =>
  match txt with
  | none => .error .typeError
  | some s =>
    if s == "" then .ok ""
    else if !attrs.all
        (fun p => p.1 == "case" || p.1 == "gender" || p.1 == "one_hundred"
          || p.1 == "comma_null") then
      .error .typeError
    else
      match attrOr attrs "case" "nf", attrOr attrs "gender" "hk",
          attrOr attrs "one_hundred" "False",
          attrOr attrs "comma_null" "False" with
      | some cs, some gs, some ohs, some cns =>
        if cs != "nf" then .error .valueError
        else
          match parseGender gs with
          | some g =>
            match float_to_text g (ohs == "True") (cns == "True") s with
            | some out => .ok out
            | none => .error .valueError
          | none => .error .valueError
      | _, _, _, _ => .error .typeError

/-- Modelled from the spec: nominative singular ordinal forms 0-19 of the
missing numeral module ("núllti" for 0 per the unit tests). -/
def ordinalUnit (g : Gender) (n : Nat) : String :=
  match g, n with
  | .kk, 0 => "núllti"
  | .kk, 1 => "fyrsti"
  | .kk, 2 => "annar"
  | .kk, 3 => "þriðji"
  | .kk, 4 => "fjórði"
  | .kk, 5 => "fimmti"
  | .kk, 6 => "sjötti"
  | .kk, 7 => "sjöundi"
  | .kk, 8 => "áttundi"
  | .kk, 9 => "níundi"
  | .kk, 10 => "tíundi"
  | .kk, 11 => "ellefti"
  | .kk, 12 => "tólfti"
  | .kk, 13 => "þrettándi"
  | .kk, 14 => "fjórtándi"
  | .kk, 15 => "fimmtándi"
  | .kk, 16 => "sextándi"
  | .kk, 17 => "sautjándi"
  | .kk, 18 => "átjándi"
  | .kk, 19 => "nítjándi"
  | .kvk, 2 => "önnur"
  | .hk, 2 => "annað"
  | _, 0 => "núllta"
  | _, 1 => "fyrsta"
  | _, 3 => "þriðja"
  | _, 4 => "fjórða"
  | _, 5 => "fimmta"
  | _, 6 => "sjötta"
  | _, 7 => "sjöunda"
  | _, 8 => "áttunda"
  | _, 9 => "níunda"
  | _, 10 => "tíunda"
  | _, 11 => "ellefta"
  | _, 12 => "tólfta"
  | _, 13 => "þrettánda"
  | _, 14 => "fjórtánda"
  | _, 15 => "fimmtánda"
  | _, 16 => "sextánda"
  | _, 17 => "sautjánda"
  | _, 18 => "átjánda"
  | _, _ => "nítjánda"

/-- Modelled from the spec: nominative singular ordinal tens forms,
indexed by the tens digit. -/
def ordinalTen (g : Gender) (t : Nat) : String :=
  let stem :=
    match t with
    | 2 => "tuttugast"
    | 3 => "þrítugast"
    | 4 => "fertugast"
    | 5 => "fimmtugast"
    | 6 => "sextugast"
    | 7 => "sjötugast"
    | 8 => "áttugast"
    | _ => "nítugast"
  stem ++ (match g with | .kk => "i" | _ => "a")

/-- Modelled from the spec: the ordinal "hundredth" word, inflected by
gender. -/
def hundredthWord (g : Gender) : String :=
  match g with
  | .kk => "hundraðasti"
  | _ => "hundraðasta"

/-- Modelled from the spec: `number_to_ordinal` (nominative singular)
of the missing numeral module, restricted to |n| < 1000: the sub-100
part substitutes ordinal unit and tens forms with an "og" join, hundreds
use a neuter cardinal digit before the gendered "hundredth" word, and a
remainder is attached with "og"; a minus sign becomes a "mínus" word.
Pinned by `test_number_to_ordinal` (302 kvk → "þrjú hundraðasta og
önnur"). -/
def number_to_ordinal (g : Gender) (n : Int) : String :=
  let na := n.natAbs
  let small := fun (m : Nat) =>
    if m < 20 then ordinalUnit g m
    else if m % 10 == 0 then ordinalTen g (m / 10)
    else ordinalTen g (m / 10) ++ " og " ++ ordinalUnit g (m % 10)
  let core :=
    if na < 100 then small na
    else
      let h := na / 100
      let r := na % 100
      let hw :=
        (if h == 1 then "" else digitWord .hk h ++ " ") ++ hundredthWord g
      if r == 0 then hw else hw ++ " og " ++ small r
  if n < 0 then "mínus " ++ core else core

/-- Translation of `DefaultTranscriber.ordinal` (nominative singular
only, per the modelled numeral engine; values at or beyond 1000 are
outside the model). -/
def ordinalMethod : TMethod := fun txt attrs =>
  match txt with
  | none => .error .typeError
  | some s =>
    if s == "" then .ok ""
    else if !attrs.all
        (fun p => p.1 == "case" || p.1 == "gender" || p.1 == "number") then
      .error .typeError
    else
      match attrOr attrs "case" "nf", attrOr attrs "gender" "hk",
          attrOr attrs "number" "et" with
      | some cs, some gs, some ns =>
        if cs != "nf" || ns != "et" then .error .valueError
        else
          match parseGender gs, pyInt s with
          | some g, some n =>
            if n.natAbs < 1000 then .ok (number_to_ordinal g n)
            else .error .valueError
          | _, _ => .error .valueError
      | _, _, _ => .error .typeError

/-- The `_MONTH_NAMES` tuple (transcribe/__init__.py lines 417-430). -/
def MONTH_NAMES : List String :=
  ["janúar", "febrúar", "mars", "apríl", "maí", "júní", "júlí", "ágúst",
   "september", "október", "nóvember", "desember"]

/-- Translation of `_date_to_text` (transcribe/__init__.py lines 451-459),
nominative: the day (when nonzero) as a masculine singular ordinal, the
month name, and the year (when nonzero) via `year_to_text`. -/
def date_to_text (year month day : Nat) : String :=
  (if day != 0 then number_to_ordinal .kk (day : Int) ++ " " else "") ++
  MONTH_NAMES.getD (month - 1) "" ++
  (if year != 0 then " " ++ year_to_text (year : Int) else "")

/-- Parse a full-string date of the `_DATE_REGEX` forms "YYYY-M-D" or
"D/M/YYYY" into (year, month, day); the month-name form and partial
(substring) matches are outside the model. -/
def parseDateString (s : String) : Option (Nat × Nat × Nat) :=
  match splitOnChar '-' s.data with
  | [y, m, d] =>
    if y.length ≥ 1 && y.length ≤ 4 && m.length ≥ 1 && m.length ≤ 2
        && d.length ≥ 1 && d.length ≤ 2 then
      match parseDigits y, parseDigits m, parseDigits d with
      | some yv, some mv, some dv => some (yv, mv, dv)
      | _, _, _ => none
    else none
  | _ =>
    match splitOnChar '/' s.data with
    | [d, m, y] =>
      if d.length ≥ 1 && d.length ≤ 2 && m.length ≥ 1 && m.length ≤ 2
          && y.length ≥ 1 && y.length ≤ 4 then
        match parseDigits y, parseDigits m, parseDigits d with
        | some yv, some mv, some dv => some (yv, mv, dv)
        | _, _, _ => none
      else none
    | _ => none

/-- Translation of `DefaultTranscriber.date` (lines 792-817), restricted
to inputs that are exactly one date expression with month 1-12 (a month
beyond 12 raises IndexError on the month-name tuple; text without a date
match is returned unchanged). -/
def dateMethod : TMethod := fun txt attrs =>
  match txt with
  | none => .error .typeError
  | some s =>
    if s == "" then .ok ""
    else if !attrs.all (fun p => p.1 == "case") then .error .typeError
    else
      match attrOr attrs "case" "nf" with
      | some cs =>
        if cs != "nf" then .error .valueError
        else
          match parseDateString s with
          | some (y, m, d) =>
            if m == 0 then .error .valueError
            else if m ≤ 12 then .ok (date_to_text y m d)
            else .error .indexError
          | none => .ok s
      | none => .error .typeError

/-- Model of Python `str.lower` on a single character (ASCII plus the
Icelandic letters), inverse to `pyUpperChar`. -/
def pyLowerChar (c : Char) : Char :=
  if c = 'Á' then 'á'
  else if c = 'É' then 'é'
  else if c = 'Í' then 'í'
  else if c = 'Ó' then 'ó'
  else if c = 'Ú' then 'ú'
  else if c = 'Ý' then 'ý'
  else if c = 'Ð' then 'ð'
  else if c = 'Þ' then 'þ'
  else if c = 'Æ' then 'æ'
  else if c = 'Ö' then 'ö'
  else c.toLower

/-- Model of Python `str.isspace` on a single character. -/
def pySpace (c : Char) : Bool :=
  c == ' ' || c == '\t' || c == '\n' || c == '\r' || c == '\x0b' || c == '\x0c'

/-- The `_CHAR_PRONUNCIATION` table (transcribe/__init__.py lines
831-868). -/
def CHAR_PRONUNCIATION (c : Char) : Option String :=
  match c with
  | 'a' => some "a"
  | 'á' => some "á"
  | 'b' => some "bé"
  | 'c' => some "sé"
  | 'd' => some "dé"
  | 'ð' => some "eð"
  | 'e' => some "e"
  | 'é' => some "é"
  | 'f' => some "eff"
  | 'g' => some "gé"
  | 'h' => some "há"
  | 'i' => some "i"
  | 'í' => some "í"
  | 'j' => some "joð"
  | 'k' => some "ká"
  | 'l' => some "ell"
  | 'm' => some "emm"
  | 'n' => some "enn"
  | 'o' => some "o"
  | 'ó' => some "ó"
  | 'p' => some "pé"
  | 'q' => some "kú"
  | 'r' => some "err"
  | 's' => some "ess"
  | 't' => some "té"
  | 'u' => some "u"
  | 'ú' => some "ú"
  | 'v' => some "vaff"
  | 'w' => some "tvöfaltvaff"
  | 'x' => some "ex"
  | 'y' => some "ufsilon"
  | 'ý' => some "ufsilon í"
  | 'þ' => some "þoddn"
  | 'æ' => some "æ"
  | 'ö' => some "ö"
  | 'z' => some "seta"
  | _ => none

/-- Model of Python `sep.join(t)`. -/
def pyJoinSep (sep : String) : List String → String
  | [] => ""
  | [s] => s
  | s :: rest => s ++ sep ++ pyJoinSep sep rest

/-- The timed SSML break `DefaultTranscriber.vbreak(time=t)` produces. -/
def vbreakTimeStr (t : String) : String := "<break time=\"" ++ t ++ "\" />"

/-- Translation of `DefaultTranscriber.spell` (lines 873-890), non-literal
mode: each non-space character is replaced by its pronunciation (itself
when not in the table), and the pronunciations are wrapped and joined
with timed SSML breaks (an empty or absent pause length falls back to
"20ms" per `pause_length or "20ms"`). -/
def spell (pause : Option String) (txt : String) : String :=
  let p : String :=
    match pause with
    | some q => if q == "" then "20ms" else q
    | none => "20ms"
  let t := txt.data.map
    (fun c =>
      if pySpace c then ""
      else
        match CHAR_PRONUNCIATION (pyLowerChar c) with
        | some w => w
        | none => String.singleton c)
  vbreakTimeStr "10ms" ++ pyJoinSep (vbreakTimeStr p) t ++
    vbreakTimeStr (if t.length > 1 then "20ms" else "10ms")

/-- Translation of the `spell` transcription method wrapper (literal mode,
which additionally names punctuation, is outside the model). -/
def spellMethod : TMethod := fun txt attrs =>
  match txt with
  | none => .error .typeError
  | some s =>
    if s == "" then .ok ""
    else if !attrs.all
        (fun p => p.1 == "pause_length" || p.1 == "literal") then
      .error .typeError
    else
      match attrOr attrs "literal" "False" with
      | some lit =>
        if lit == "True" then .error .valueError
        else
          .ok (spell
            (match List.lookup "pause_length" attrs with
             | some (some q) => some q
             | _ => none) s)
      | none => .error .typeError

/-- Uppercase letters of the modelled alphabet (ASCII plus the Icelandic
letters). -/
def isUpperLetter (c : Char) : Bool :=
  ('A' ≤ c && c ≤ 'Z') ||
    ['Á', 'É', 'Í', 'Ó', 'Ú', 'Ý', 'Ð', 'Þ', 'Æ', 'Ö'].contains c

/-- Lowercase letters of the modelled alphabet. -/
def isLowerLetter (c : Char) : Bool :=
  ('a' ≤ c && c ≤ 'z') ||
    ['á', 'é', 'í', 'ó', 'ú', 'ý', 'ð', 'þ', 'æ', 'ö'].contains c

/-- Model of Python `str.islower`: no uppercase letter occurs and at
least one lowercase (cased) letter does. -/
def pyIsLower (s : String) : Bool :=
  s.data.all (fun c => !(isUpperLetter c)) && s.data.any isLowerLetter

/-- Modelled: `Abbreviations.get_meaning` lives in the external
`tokenizer` package; the model is restricted to inputs with no Icelandic
lexicon meaning — such as the source's own fallback examples "MSc" and
"cand.med." — for which the filtered meaning tuple is empty. -/
def abbrevMeaning (_ : String) : Option String := none

/-- Translation of `DefaultTranscriber.abbrev` (lines 901-920): a known
meaning is expanded between timed SSML breaks; otherwise input that is
not all-lowercase is spelled out (periods removed) and all-lowercase
input is returned unchanged. -/
def abbrevCore (txt : String) : String :=
  match abbrevMeaning txt with
  | some stofn => vbreakTimeStr "10ms" ++ stofn ++ vbreakTimeStr "50ms"
  | none =>
    if !(pyIsLower txt) then spell none (pyReplace txt "." "")
    else txt

/-- Translation of the `abbrev` transcription method wrapper. -/
def abbrevMethod : TMethod := fun txt attrs =>
  match txt with
  | none => .error .typeError
  | some s =>
    if s == "" then .ok ""
    else if !attrs.isEmpty then .error .typeError
    else .ok (abbrevCore s)

/-- Expected outputs from `test_float_to_text` and
`test_number_to_ordinal` in `src/tests/test_transcribe_num.py` (and the
float values embedded in `test_floats_to_text`), pinning the modelled
float and ordinal renderers to the behaviour recorded in the source
tree. -/
theorem float_ordinal_engine_matches_unit_tests :
    float_to_text .hk false false "-0.12" = some "mínus núll komma tólf" ∧
    float_to_text .hk false false "-0.1012" =
      some "mínus núll komma eitt núll eitt tvö" ∧
    float_to_text .kk false false "-0.1012" =
      some "mínus núll komma einn núll einn tveir" ∧
    float_to_text .kk false false "-21.12" =
      some "mínus tuttugu og einn komma tólf" ∧
    float_to_text .kk false false "-21.123" =
      some "mínus tuttugu og einn komma einn tveir þrír" ∧
    float_to_text .kvk false false "1.03" = some "ein komma núll þrjár" ∧
    float_to_text .hk false false "-10100,21" =
      some "mínus tíu þúsund og eitt hundrað komma tuttugu og eitt" ∧
    float_to_text .hk false false "-10100.21" =
      some "mínus tíu þúsund og eitt hundrað komma tuttugu og eitt" ∧
    float_to_text .hk false false "0,04" = some "núll komma núll fjögur" ∧
    float_to_text .hk false false "101,0021" =
      some "hundrað og eitt komma núll núll tuttugu og eitt" ∧
    number_to_ordinal .kk 0 = "núllti" ∧
    number_to_ordinal .kvk 302 = "þrjú hundraðasta og önnur" := by
  decide

/-- The default transcriber, over the embedded method subset. -/
def defaultTranscriber : Transcriber :=
  ⟨danger_symbols, fun ty =>
    if ty == "number" then some numberMethod
    else if ty == "float" then some floatMethod
    else if ty == "ordinal" then some ordinalMethod
    else if ty == "digits" then some digitsMethod
    else if ty == "phone" then some phoneMethod
    else if ty == "time" then some timeMethod
    else if ty == "date" then some dateMethod
    else if ty == "year" then some yearMethod
    else if ty == "spell" then some spellMethod
    else if ty == "abbrev" then some abbrevMethod
    else if ty == "vbreak" then some vbreakMethod
    else if ty == "paragraph" then some paragraphMethod
    else if ty == "sentence" then some sentenceMethod
    else none⟩

/-! ### The audio cache and `text_to_speech` (src/icespeak/tts.py)

`text_to_speech` is wrapped by `cachetools.cached(_AUDIO_CACHE)`, where
`_AUDIO_CACHE` is a `TmpFileLFUCache` — an `LFUCache` whose `popitem`
additionally puts the evicted audio file on the expired-files queue when
`SETTINGS.AUDIO_CACHE_CLEAN` is set.  `cachetools` is external to the
repository; its semantics are embedded: every entry has size 1
(the default `getsizeof`), `Cache.__setitem__` raises `ValueError` when
the entry size exceeds `maxsize` (so a `maxsize` of 0 rejects every
insertion) and otherwise evicts while over capacity before storing, the
`cached` wrapper looks the key up first, computes and stores on a miss,
and swallows the `ValueError`; `LFUCache` keeps a counter mapping each
key to the negated access count, and `popitem` removes the entry with
the greatest counter value (the least-used), ties to the earliest
first-touched key.  Audio file paths are modelled as `Nat` ids; the
`speed` float as `ℚ`. -/

/-- A call's arguments exactly as passed (`cachetools.keys.hashkey`
builds the cache key from the argument tuple, so an omitted keyword
argument gives a different key than the same value passed explicitly). -/
structure TTSArgs where
  text : String
  voice : Option String
  speed : Option ℚ
  textFormat : Option String
  audioFormat : Option String
deriving DecidableEq

/-- Effective synthesis options: defaults from settings.py
(Gudrun, 1.0, ssml, mp3) filled in for omitted arguments. -/
structure EffOpts where
  voice : String
  speed : ℚ
  textFormat : String
  audioFormat : String
deriving DecidableEq

def TTSArgs.effective (a : TTSArgs) : EffOpts :=
  ⟨a.voice.getD "Gudrun", a.speed.getD 1,
   a.textFormat.getD "ssml", a.audioFormat.getD "mp3"⟩

/-- `MIN_SPEED` (settings.py), the rational one half (written via `mk'`
so that comparisons against it evaluate). -/
def MIN_SPEED : ℚ := Rat.mk' 1 2

/-- `MAX_SPEED` (settings.py). -/
def MAX_SPEED : ℚ := 2

/-- The `LFUCache` state: entries (first-insertion order), the LFU
counter (key ↦ negated access count, first-touch order) and the
configured maximum entry count (`SETTINGS.AUDIO_CACHE_SIZE`,
default 300). -/
structure LFUState where
  data : List (TTSArgs × Nat)
  counter : List (TTSArgs × Int)
  maxsize : Nat
deriving DecidableEq

inductive CacheErr
  | valueTooLarge
  | keyError
deriving DecidableEq

/-- `LFUCache` counter update `self.__counter[key] -= 1` (a missing key
counts as 0 and is appended). -/
def counterBump (counter : List (TTSArgs × Int)) (k : TTSArgs) :
    List (TTSArgs × Int) :=
  if k ∈ counter.map Prod.fst then
    counter.map (fun p => if p.1 = k then (p.1, p.2 - 1) else p)
  else counter ++ [(k, -1)]

/-- `Counter.most_common(1)`: the entry with the greatest count, ties to
the earliest entry. -/
def mostCommon1 : List (TTSArgs × Int) → Option (TTSArgs × Int)
  | [] => none
  | p :: rest => some (rest.foldl (fun best q => if best.2 < q.2 then q else best) p)

/-- `TmpFileLFUCache.popitem` (tts.py lines 157-165): evict the
least-frequently-used entry and, when cleaning is on, put its audio file
on the expired queue (never deleting it synchronously). -/
def lfuPopitem (clean : Bool) (c : LFUState) (queue : List Nat) :
    Except CacheErr ((TTSArgs × Nat) × LFUState × List Nat) :=
  match mostCommon1 c.counter with
  | none => .error .keyError
  | some (k, _) =>
    match List.lookup k c.data with
    | none => .error .keyError
    | some v =>
      .ok ((k, v),
        ⟨c.data.filter (fun p => p.1 ≠ k), c.counter.filter (fun p => p.1 ≠ k),
          c.maxsize⟩,
        if clean then queue ++ [v] else queue)

/-- The `while self.__currsize + size > maxsize: self.popitem()` loop of
`Cache.__setitem__`, fuel-bounded (the entry count plus one always
suffices). -/
def evictLoop (clean : Bool) : Nat → LFUState → List Nat →
    Except CacheErr (LFUState × List Nat)
  | 0, c, q =>
    if c.data.length + 1 > c.maxsize then .error .keyError else .ok (c, q)
  | fuel + 1, c, q =>
    if c.data.length + 1 > c.maxsize then
      match lfuPopitem clean c q with
      | .error e => .error e
      | .ok (_, c', q') => evictLoop clean fuel c' q'
    else .ok (c, q)

/-- `Cache.__setitem__` followed by the `LFUCache` counter update: reject
when the entry size (1) exceeds `maxsize`; evict while over capacity when
the key is new; store; bump the counter. -/
def lfuSet (clean : Bool) (c : LFUState) (q : List Nat) (k : TTSArgs) (v : Nat) :
    Except CacheErr (LFUState × List Nat) :=
  if 1 > c.maxsize then .error .valueTooLarge
  else
    let evicted : Except CacheErr (LFUState × List Nat) :=
      if k ∈ c.data.map Prod.fst then .ok (c, q)
      else evictLoop clean (c.data.length + 1) c q
    match evicted with
    | .error e => .error e
    | .ok (c', q') =>
      let data' :=
        if k ∈ c'.data.map Prod.fst then
          c'.data.map (fun p => if p.1 = k then (k, v) else p)
        else c'.data ++ [(k, v)]
      .ok (⟨data', counterBump c'.counter k, c'.maxsize⟩, q')

/-- `LFUCache.__getitem__`: a hit returns the value and bumps the
counter; a miss (`KeyError` caught by the `cached` wrapper) is `none`
and leaves the cache untouched. -/
def lfuGet (c : LFUState) (k : TTSArgs) : Option (Nat × LFUState) :=
  match List.lookup k c.data with
  | none => none
  | some v => some (v, ⟨c.data, counterBump c.counter k, c.maxsize⟩)

inductive TTSErr
  | valueError
  | backendError
  | cacheInternal
deriving DecidableEq

/-- Full state around `text_to_speech`: the audio cache, the
expired-files queue, the set of files on disk, a fresh-path source
(voice backends name output files with fresh uuids), the number of
backend invocations, and the `AUDIO_CACHE_CLEAN` setting. -/
structure TTSState where
  cache : LFUState
  queue : List Nat
  files : List Nat
  fresh : Nat
  backendCalls : Nat
  cacheClean : Bool
deriving DecidableEq

/-- The argument checks of `text_to_speech` (tts.py lines 217-223):
supported voice, speed within [MIN_SPEED, MAX_SPEED]. -/
def validArgs (voices : List String) (a : TTSArgs) : Prop :=
  a.effective.voice ∈ voices ∧
    MIN_SPEED ≤ a.effective.speed ∧ a.effective.speed ≤ MAX_SPEED

instance (voices : List String) (a : TTSArgs) : Decidable (validArgs voices a) := by
  unfold validArgs
  infer_instance

/-- Translation of the `cached`-wrapped `text_to_speech` (tts.py lines
201-232): look the argument key up in the cache; on a miss, validate the
voice and the speed (raising `ValueError` before any backend call),
invoke the backend service (`backendOk` models whether that call
succeeds), store the fresh audio path in the cache (a `ValueError` from
a zero-capacity cache is swallowed), and return the path. -/
def text_to_speech (voices : List String) (backendOk : Bool) (st : TTSState)
    (a : TTSArgs) : Except TTSErr Nat × TTSState :=
  match lfuGet st.cache a with
  | some (v, cache') => (.ok v, { st with cache := cache' })
  | none =>
    if a.effective.voice ∉ voices then (.error .valueError, st)
    else if a.effective.speed < MIN_SPEED ∨ MAX_SPEED < a.effective.speed then
      (.error .valueError, st)
    else if !backendOk then
      (.error .backendError, { st with backendCalls := st.backendCalls + 1 })
    else
      match lfuSet st.cacheClean st.cache st.queue a st.fresh with
      | .ok (c', q') =>
        (.ok st.fresh,
         ⟨c', q', st.files ++ [st.fresh], st.fresh + 1, st.backendCalls + 1,
          st.cacheClean⟩)
      | .error .valueTooLarge =>
        (.ok st.fresh,
         ⟨st.cache, st.queue, st.files ++ [st.fresh], st.fresh + 1,
          st.backendCalls + 1, st.cacheClean⟩)
      | .error .keyError =>
        (.error .cacheInternal,
         ⟨st.cache, st.queue, st.files ++ [st.fresh], st.fresh + 1,
          st.backendCalls + 1, st.cacheClean⟩)

/-- Well-formedness of a cache state, as maintained by the embedded
operations: per-stack nodup keys, the counter tracks exactly the stored
keys, and the entry count respects the configured maximum. -/
structure LFUValid (c : LFUState) : Prop where
  nodupData : (c.data.map Prod.fst).Nodup
  nodupCounter : (c.counter.map Prod.fst).Nodup
  sameKeys : ∀ k, k ∈ c.data.map Prod.fst ↔ k ∈ c.counter.map Prod.fst
  bounded : c.data.length ≤ c.maxsize

/-! Lookup and key-list facts used by the cache proofs. -/

theorem lookup_eq_none_iff {β : Type} (k : TTSArgs) (l : List (TTSArgs × β)) :
    List.lookup k l = none ↔ k ∉ l.map Prod.fst := by
  induction l with
  | nil => simp [List.lookup]
  | cons p rest ih =>
    rcases p with ⟨a, b⟩
    by_cases h : k = a
    · subst h
      simp [List.lookup]
    · have hb : (k == a) = false := beq_eq_false_iff_ne.mpr h
      simp only [List.lookup, hb]
      rw [ih]
      simp only [List.map_cons, List.mem_cons, not_or]
      exact ⟨fun hh => ⟨h, hh⟩, fun hh => hh.2⟩

theorem lookup_isSome_of_mem_keys {β : Type} (k : TTSArgs) (l : List (TTSArgs × β))
    (h : k ∈ l.map Prod.fst) : ∃ v, List.lookup k l = some v := by
  cases hl : List.lookup k l with
  | none => exact absurd ((lookup_eq_none_iff k l).mp hl) (by simp [h])
  | some v => exact ⟨v, rfl⟩

theorem lookup_append_last {β : Type} (k : TTSArgs) (v : β)
    (l : List (TTSArgs × β)) (h : k ∉ l.map Prod.fst) :
    List.lookup k (l ++ [(k, v)]) = some v := by
  induction l with
  | nil => simp [List.lookup]
  | cons p rest ih =>
    rcases p with ⟨a, b⟩
    have hne : k ≠ a := by
      intro he
      exact h (by simp [he])
    have hrest : k ∉ rest.map Prod.fst := by
      intro hm
      exact h (by simp [hm])
    have hb : (k == a) = false := beq_eq_false_iff_ne.mpr hne
    simp only [List.cons_append, List.lookup, hb]
    exact ih hrest

theorem filter_ne_keys {β : Type} (l : List (TTSArgs × β)) (k k' : TTSArgs) :
    (k' ∈ (l.filter (fun p => p.1 ≠ k)).map Prod.fst) ↔
      (k' ∈ l.map Prod.fst ∧ k' ≠ k) := by
  simp only [List.mem_map, List.mem_filter]
  constructor
  · rintro ⟨p, ⟨hp, hd⟩, rfl⟩
    exact ⟨⟨p, hp, rfl⟩, by simpa using hd⟩
  · rintro ⟨⟨p, hp, rfl⟩, hne⟩
    exact ⟨p, ⟨hp, by simpa using hne⟩, rfl⟩

theorem filter_ne_length_lt {β : Type} (l : List (TTSArgs × β)) (k : TTSArgs)
    (h : k ∈ l.map Prod.fst) :
    (l.filter (fun p => p.1 ≠ k)).length < l.length := by
  induction l with
  | nil => simp at h
  | cons p rest ih =>
    rcases p with ⟨a, b⟩
    by_cases ha : a = k
    · subst ha
      rw [List.filter_cons_of_neg (by simp)]
      have := List.length_filter_le (fun p : TTSArgs × β => decide (p.1 ≠ a)) rest
      simp only [List.length_cons]
      omega
    · rw [List.filter_cons_of_pos (by simp [ha])]
      have hm : k ∈ rest.map Prod.fst := by
        rcases (by simpa using h : k = a ∨ k ∈ rest.map Prod.fst) with he | hm
        · exact absurd he.symm ha
        · exact hm
      have := ih hm
      simp only [List.length_cons]
      omega

theorem filter_ne_sublist_keys {β : Type} (l : List (TTSArgs × β)) (k : TTSArgs) :
    ((l.filter (fun p => p.1 ≠ k)).map Prod.fst).Sublist (l.map Prod.fst) :=
  (List.filter_sublist l).map Prod.fst

theorem foldl_max_spec (rest : List (TTSArgs × Int)) :
    ∀ p0 : TTSArgs × Int,
      (rest.foldl (fun best q => if best.2 < q.2 then q else best) p0) ∈ p0 :: rest ∧
      ∀ q ∈ p0 :: rest,
        q.2 ≤ (rest.foldl (fun best q => if best.2 < q.2 then q else best) p0).2 := by
  induction rest with
  | nil =>
    intro p0
    constructor
    · simp
    · intro q hq
      have hqe : q = p0 := by simpa using hq
      rw [hqe]
      simp
  | cons r rs ih =>
    intro p0
    simp only [List.foldl_cons]
    by_cases hc : p0.2 < r.2
    · rw [if_pos hc]
      rcases ih r with ⟨hmem, hmax⟩
      constructor
      · rcases List.mem_cons.mp hmem with he | hm
        · rw [he]
          exact List.mem_cons_of_mem _ (List.mem_cons_self _ _)
        · exact List.mem_cons_of_mem _ (List.mem_cons_of_mem _ hm)
      · intro q hq
        have hbase := hmax r (List.mem_cons_self _ _)
        rcases List.mem_cons.mp hq with he | hq2
        · rw [he]
          omega
        · rcases List.mem_cons.mp hq2 with he | hm
          · rw [he]
            exact hbase
          · exact hmax q (List.mem_cons_of_mem _ hm)
    · rw [if_neg hc]
      rcases ih p0 with ⟨hmem, hmax⟩
      constructor
      · rcases List.mem_cons.mp hmem with he | hm
        · rw [he]
          exact List.mem_cons_self _ _
        · exact List.mem_cons_of_mem _ (List.mem_cons_of_mem _ hm)
      · intro q hq
        have hbase := hmax p0 (List.mem_cons_self _ _)
        rcases List.mem_cons.mp hq with he | hq2
        · rw [he]
          exact hbase
        · rcases List.mem_cons.mp hq2 with he | hm
          · rw [he]
            omega
          · exact hmax q (List.mem_cons_of_mem _ hm)

theorem mostCommon1_spec (l : List (TTSArgs × Int)) (p : TTSArgs × Int)
    (h : mostCommon1 l = some p) : p ∈ l ∧ ∀ q ∈ l, q.2 ≤ p.2 := by
  cases l with
  | nil => simp [mostCommon1] at h
  | cons p0 rest =>
    simp only [mostCommon1, Option.some.injEq] at h
    rcases foldl_max_spec rest p0 with ⟨hmem, hmax⟩
    rw [h] at hmem hmax
    exact ⟨hmem, hmax⟩

/-- Evicting a key preserves cache well-formedness. -/
theorem LFUValid.filterOut {c : LFUState} (hv : LFUValid c) (k : TTSArgs) :
    LFUValid ⟨c.data.filter (fun p => p.1 ≠ k),
      c.counter.filter (fun p => p.1 ≠ k), c.maxsize⟩ := by
  refine ⟨?_, ?_, ?_, ?_⟩
  · exact hv.nodupData.sublist (filter_ne_sublist_keys c.data k)
  · exact hv.nodupCounter.sublist (filter_ne_sublist_keys c.counter k)
  · intro k'
    rw [filter_ne_keys, filter_ne_keys, hv.sameKeys k']
  · calc (c.data.filter (fun p => p.1 ≠ k)).length
        ≤ c.data.length := List.length_filter_le _ _
      _ ≤ c.maxsize := hv.bounded


/-- From a well-formed state with a nonzero maximum, the eviction loop
succeeds (with enough fuel), preserves well-formedness, makes room for
one new entry, and only ever removes keys. -/
theorem evictLoop_ok (clean : Bool) :
    ∀ (fuel : Nat) (c : LFUState) (q : List Nat),
      LFUValid c → 1 ≤ c.maxsize → c.data.length ≤ fuel →
      ∃ c' q', evictLoop clean fuel c q = .ok (c', q') ∧
        LFUValid c' ∧ c'.maxsize = c.maxsize ∧ c'.data.length + 1 ≤ c.maxsize ∧
        (∀ k, k ∈ c'.data.map Prod.fst → k ∈ c.data.map Prod.fst) := by
  intro fuel
  induction fuel with
  | zero =>
    intro c q hv hm hf
    have hd : c.data = [] := List.length_eq_zero.mp (by omega)
    refine ⟨c, q, ?_, hv, rfl, ?_, fun k hk => hk⟩
    · unfold evictLoop
      rw [if_neg (by rw [hd]; simp; omega)]
    · rw [hd]
      simpa using hm
  | succ fuel ih =>
    intro c q hv hm hf
    by_cases hcond : c.data.length + 1 > c.maxsize
    · have hne : c.data ≠ [] := by
        intro he
        rw [he] at hcond
        simp at hcond
        omega
      obtain ⟨p0, rest0, hd0⟩ : ∃ p rest, c.data = p :: rest := by
        cases hdd : c.data with
        | nil => exact absurd hdd hne
        | cons p rest => exact ⟨p, rest, rfl⟩
      have hk0 : p0.1 ∈ c.data.map Prod.fst := by
        rw [hd0]
        simp
      have hcne : c.counter ≠ [] := by
        intro he
        have := (hv.sameKeys p0.1).mp hk0
        rw [he] at this
        simp at this
      obtain ⟨c0, crest, hcc⟩ : ∃ p rest, c.counter = p :: rest := by
        cases hdd : c.counter with
        | nil => exact absurd hdd hcne
        | cons p rest => exact ⟨p, rest, rfl⟩
      obtain ⟨k, n, hkn⟩ : ∃ k n,
          crest.foldl (fun best q => if best.2 < q.2 then q else best) c0 = (k, n) :=
        ⟨_, _, rfl⟩
      have hmc : mostCommon1 c.counter = some (k, n) := by
        rw [hcc]
        simp only [mostCommon1, Option.some.injEq]
        exact hkn
      rcases mostCommon1_spec c.counter _ hmc with ⟨hbmem, hbmax⟩
      have hkc : k ∈ c.counter.map Prod.fst := by
        have := List.mem_map_of_mem Prod.fst hbmem
        simpa using this
      have hkd := (hv.sameKeys _).mpr hkc
      obtain ⟨v, hlk⟩ := lookup_isSome_of_mem_keys _ c.data hkd
      have hpop : lfuPopitem clean c q = .ok
          ((k, v),
           ⟨c.data.filter (fun p => p.1 ≠ k), c.counter.filter (fun p => p.1 ≠ k),
            c.maxsize⟩,
           if clean then q ++ [v] else q) := by
        unfold lfuPopitem
        rw [hmc]
        simp only [hlk]
      have hvF := hv.filterOut k
      have hlt := filter_ne_length_lt c.data _ hkd
      obtain ⟨c', q', hrun, hv', hm', hlen', hsub'⟩ :=
        ih ⟨c.data.filter (fun p => p.1 ≠ k), c.counter.filter (fun p => p.1 ≠ k),
              c.maxsize⟩
          (if clean then q ++ [v] else q) hvF (by simpa using hm)
          (by simpa using Nat.le_of_lt_succ (Nat.lt_of_lt_of_le hlt hf))
      refine ⟨c', q', ?_, hv', by simpa using hm', by simpa using hlen', ?_⟩
      · unfold evictLoop
        rw [if_pos hcond, hpop]
        exact hrun
      · intro kk hkk
        have := hsub' kk hkk
        rw [filter_ne_keys] at this
        exact this.1
    · refine ⟨c, q, ?_, hv, rfl, by omega, fun k hk => hk⟩
      unfold evictLoop
      rw [if_neg hcond]

/-- Storing a new key in a well-formed cache with a nonzero maximum
succeeds, keeps the cache well-formed and within its bound, and makes the
key retrievable. -/
theorem lfuSet_ok_new_key (clean : Bool) (c : LFUState) (q : List Nat)
    (k : TTSArgs) (v : Nat) (hv : LFUValid c) (hm : 1 ≤ c.maxsize)
    (hk : k ∉ c.data.map Prod.fst) :
    ∃ c' q', lfuSet clean c q k v = .ok (c', q') ∧ LFUValid c' ∧
      c'.maxsize = c.maxsize ∧ c'.data.length ≤ c.maxsize ∧
      List.lookup k c'.data = some v := by
  obtain ⟨cE, qE, hrun, hvE, hmE, hlenE, hsubE⟩ :=
    evictLoop_ok clean (c.data.length + 1) c q hv hm (by omega)
  have hkE : k ∉ cE.data.map Prod.fst := fun hmem => hk (hsubE k hmem)
  have hkEc : k ∉ cE.counter.map Prod.fst := fun h => hkE ((hvE.sameKeys k).mpr h)
  have hcb : counterBump cE.counter k = cE.counter ++ [(k, -1)] := by
    unfold counterBump
    rw [if_neg hkEc]
  have hset : lfuSet clean c q k v =
      .ok (⟨cE.data ++ [(k, v)], counterBump cE.counter k, cE.maxsize⟩, qE) := by
    unfold lfuSet
    rw [if_neg (show ¬ 1 > c.maxsize by omega), if_neg hk, hrun]
    simp only [if_neg hkE]
  refine ⟨_, _, hset, ⟨?_, ?_, ?_, ?_⟩, by simpa using hmE, ?_, ?_⟩
  · rw [List.map_append]
    refine List.Nodup.append hvE.nodupData (by simp) ?_
    intro a ha hb
    simp only [List.map_cons, List.map_nil, List.mem_singleton] at hb
    subst hb
    exact hkE ha
  · rw [hcb, List.map_append]
    refine List.Nodup.append hvE.nodupCounter (by simp) ?_
    intro a ha hb
    simp only [List.map_cons, List.map_nil, List.mem_singleton] at hb
    subst hb
    exact hkEc ha
  · intro k'
    rw [hcb]
    simp [hvE.sameKeys k']
  · simp only [List.length_append, List.length_cons, List.length_nil]
    calc cE.data.length + (0 + 1) = cE.data.length + 1 := by omega
      _ ≤ c.maxsize := hlenE
      _ = cE.maxsize := by rw [hmE]
  · simp only [List.length_append, List.length_cons, List.length_nil]
    omega
  · exact lookup_append_last k v cE.data hkE

/-- Updating an existing key stores in place: no eviction, entry count
unchanged. -/
theorem lfuSet_ok_existing_key (clean : Bool) (c : LFUState) (q : List Nat)
    (k : TTSArgs) (v : Nat) (hm : 1 ≤ c.maxsize)
    (hk : k ∈ c.data.map Prod.fst) :
    lfuSet clean c q k v =
      .ok (⟨c.data.map (fun p => if p.1 = k then (k, v) else p),
            counterBump c.counter k, c.maxsize⟩, q) := by
  unfold lfuSet
  rw [if_neg (show ¬ 1 > c.maxsize by omega)]
  simp only [if_pos hk]

/-- A `maxsize` of zero rejects every insertion (`ValueError`,
"value too large"), whatever the state. -/
theorem lfuSet_zero_maxsize (clean : Bool) (c : LFUState) (q : List Nat)
    (k : TTSArgs) (v : Nat) (h0 : c.maxsize = 0) :
    lfuSet clean c q k v = .error .valueTooLarge := by
  unfold lfuSet
  rw [if_pos (by omega)]

/-- C6 counterexample: a maximum of 0 does not make the cache unbounded —
it rejects every insertion, so even after a successful synthesis call the
cache holds no entry at all. -/
theorem C6_counterexample_zero_not_unbounded :
    lfuSet true ⟨[], [], 0⟩ [] ⟨"halló", none, none, none, none⟩ 0
      = .error .valueTooLarge ∧
    (text_to_speech ["Gudrun"] true ⟨⟨[], [], 0⟩, [], [], 0, 0, true⟩
        ⟨"halló", none, none, none, none⟩).1 = .ok 0 ∧
    (text_to_speech ["Gudrun"] true ⟨⟨[], [], 0⟩, [], [], 0, 0, true⟩
        ⟨"halló", none, none, none, none⟩).2.cache.data = [] :=
  ⟨rfl, rfl, rfl⟩

/-- C6 (amended): the cache never holds more entries than the configured
maximum (preserved by every insertion); an eviction takes an entry whose
(negated) access counter is maximal — the least frequently used — and
enqueues its file for deletion instead of deleting synchronously (the
synthesis call path never removes files); configuring the maximum as 0
rejects every insertion, keeping the cache empty. -/
theorem C6_cache_bound_and_eviction :
    (∀ (clean : Bool) (c : LFUState) (q : List Nat) (k : TTSArgs) (v : Nat)
        (c' : LFUState) (q' : List Nat), LFUValid c →
      lfuSet clean c q k v = .ok (c', q') →
      c'.data.length ≤ c.maxsize ∧ c'.maxsize = c.maxsize) ∧
    (∀ (clean : Bool) (c : LFUState) (q : List Nat) (k : TTSArgs) (v : Nat)
        (c' : LFUState) (q' : List Nat),
      lfuPopitem clean c q = .ok ((k, v), c', q') →
      (∃ n, (k, n) ∈ c.counter ∧ ∀ p ∈ c.counter, p.2 ≤ n) ∧
      q' = (if clean then q ++ [v] else q) ∧
      List.lookup k c.data = some v) ∧
    (∀ (clean : Bool) (c : LFUState) (q : List Nat) (k : TTSArgs) (v : Nat),
      c.maxsize = 0 → lfuSet clean c q k v = .error .valueTooLarge) ∧
    (∀ (voices : List String) (ok : Bool) (st : TTSState) (a : TTSArgs),
      st.files <+: (text_to_speech voices ok st a).2.files) := by
  refine ⟨?_, ?_, ?_, ?_⟩
  · intro clean c q k v c' q' hv hset
    by_cases h0 : c.maxsize = 0
    · rw [lfuSet_zero_maxsize clean c q k v h0] at hset
      exact absurd hset (by simp)
    · have hm : 1 ≤ c.maxsize := by omega
      by_cases hk : k ∈ c.data.map Prod.fst
      · rw [lfuSet_ok_existing_key clean c q k v hm hk] at hset
        simp only [Except.ok.injEq, Prod.mk.injEq] at hset
        rcases hset with ⟨rfl, rfl⟩
        exact ⟨by simpa using hv.bounded, rfl⟩
      · obtain ⟨c'', q'', heq, _, hm'', hlen'', _⟩ :=
          lfuSet_ok_new_key clean c q k v hv hm hk
        rw [heq] at hset
        simp only [Except.ok.injEq, Prod.mk.injEq] at hset
        rcases hset with ⟨rfl, rfl⟩
        exact ⟨hlen'', hm''⟩
  · intro clean c q k v c' q' hpop
    unfold lfuPopitem at hpop
    cases hmc : mostCommon1 c.counter with
    | none =>
      rw [hmc] at hpop
      exact absurd hpop (by simp)
    | some p =>
      rcases p with ⟨k0, n0⟩
      rw [hmc] at hpop
      cases hlk : List.lookup k0 c.data with
      | none =>
        simp only [hlk] at hpop
        exact absurd hpop (by simp)
      | some v0 =>
        simp only [hlk, Except.ok.injEq, Prod.mk.injEq] at hpop
        obtain ⟨⟨hk1, hv1⟩, hc1, hq1⟩ := hpop
        subst hk1
        subst hv1
        rcases mostCommon1_spec c.counter _ hmc with ⟨hbmem, hbmax⟩
        exact ⟨⟨n0, hbmem, hbmax⟩, hq1.symm, hlk⟩
  · intro clean c q k v h0
    exact lfuSet_zero_maxsize clean c q k v h0
  · intro voices ok st a
    unfold text_to_speech
    cases hget : lfuGet st.cache a with
    | some p =>
      rcases p with ⟨v, c1⟩
      exact List.prefix_refl _
    | none =>
      by_cases h1 : a.effective.voice ∉ voices
      · rw [if_pos h1]
      · rw [if_neg h1]
        by_cases h2 : a.effective.speed < MIN_SPEED ∨ MAX_SPEED < a.effective.speed
        · rw [if_pos h2]
        · rw [if_neg h2]
          cases ok with
          | false => exact List.prefix_refl _
          | true =>
            simp only [Bool.not_true, Bool.false_eq_true, if_false]
            cases hset : lfuSet st.cacheClean st.cache st.queue a st.fresh with
            | ok p =>
              rcases p with ⟨c', q'⟩
              exact List.prefix_append _ _
            | error e =>
              cases e with
              | valueTooLarge => exact List.prefix_append _ _
              | keyError => exact List.prefix_append _ _

/-- C6 witness: the bound-preservation and rejection parts of the theorem
applied at concrete caches. -/
theorem C6_cache_bound_and_eviction_witness :
    ((⟨[(⟨"b", none, none, none, none⟩, 7)],
        [(⟨"b", none, none, none, none⟩, -1)], 1⟩ : LFUState).data.length ≤ 1 ∧
      (⟨[(⟨"b", none, none, none, none⟩, 7)],
        [(⟨"b", none, none, none, none⟩, -1)], 1⟩ : LFUState).maxsize = 1) ∧
    lfuSet true ⟨[], [], 0⟩ [] ⟨"x", none, none, none, none⟩ 3
      = .error .valueTooLarge :=
  ⟨C6_cache_bound_and_eviction.1 true
      ⟨[(⟨"a", none, none, none, none⟩, 5)],
       [(⟨"a", none, none, none, none⟩, -1)], 1⟩ []
      ⟨"b", none, none, none, none⟩ 7
      ⟨[(⟨"b", none, none, none, none⟩, 7)],
       [(⟨"b", none, none, none, none⟩, -1)], 1⟩ [5]
      ⟨by decide, by decide, fun _ => Iff.rfl, by decide⟩ (by rfl),
   C6_cache_bound_and_eviction.2.2.1 true ⟨[], [], 0⟩ []
      ⟨"x", none, none, none, none⟩ 3 rfl⟩

/-- C2 counterexample: two calls whose effective synthesis options are
identical, but where the second spells out the default voice explicitly,
produce different cache keys (`hashkey` is built from the argument tuple
as passed): the second call invokes the backend again and returns a
different file path. -/
theorem C2_counterexample_argument_form :
    (⟨"hi", none, none, none, none⟩ : TTSArgs).effective
      = (⟨"hi", some "Gudrun", none, none, none⟩ : TTSArgs).effective ∧
    (text_to_speech ["Gudrun"] true ⟨⟨[], [], 300⟩, [], [], 0, 0, true⟩
        ⟨"hi", none, none, none, none⟩).1 = .ok 0 ∧
    (text_to_speech ["Gudrun"] true
        (text_to_speech ["Gudrun"] true ⟨⟨[], [], 300⟩, [], [], 0, 0, true⟩
          ⟨"hi", none, none, none, none⟩).2
        ⟨"hi", some "Gudrun", none, none, none⟩).1 = .ok 1 ∧
    (text_to_speech ["Gudrun"] true
        (text_to_speech ["Gudrun"] true ⟨⟨[], [], 300⟩, [], [], 0, 0, true⟩
          ⟨"hi", none, none, none, none⟩).2
        ⟨"hi", some "Gudrun", none, none, none⟩).2.backendCalls = 2 :=
  ⟨rfl, rfl, rfl, rfl⟩

/-- C2 (amended): two consecutive calls with the same argument tuple (the
same set of explicitly passed options), on a well-formed cache whose
configured maximum is at least 1, return the identical audio path, and
the second call performs no backend invocation. -/
theorem C2_cache_idempotence :
    ∀ (voices : List String) (st : TTSState) (a : TTSArgs),
      LFUValid st.cache → 1 ≤ st.cache.maxsize → validArgs voices a →
      ∃ p, (text_to_speech voices true st a).1 = .ok p ∧
        (text_to_speech voices true (text_to_speech voices true st a).2 a).1
          = .ok p ∧
        (text_to_speech voices true
            (text_to_speech voices true st a).2 a).2.backendCalls
          = (text_to_speech voices true st a).2.backendCalls := by
  intro voices st a hv hm hva
  have hnv : ¬ a.effective.voice ∉ voices := by
    simpa using hva.1
  have hns : ¬ (a.effective.speed < MIN_SPEED ∨ MAX_SPEED < a.effective.speed) := by
    rintro (h | h)
    · exact absurd hva.2.1 (not_le.mpr h)
    · exact absurd hva.2.2 (not_le.mpr h)
  cases hget : lfuGet st.cache a with
  | some p0 =>
    rcases p0 with ⟨v, c1⟩
    have hlk : List.lookup a st.cache.data = some v := by
      unfold lfuGet at hget
      cases hlk0 : List.lookup a st.cache.data with
      | none =>
        rw [hlk0] at hget
        exact absurd hget (by simp)
      | some v0 =>
        rw [hlk0] at hget
        simp only [Option.some.injEq, Prod.mk.injEq] at hget
        rw [hget.1]
    have hc1 : c1 = ⟨st.cache.data, counterBump st.cache.counter a,
        st.cache.maxsize⟩ := by
      unfold lfuGet at hget
      cases hlk0 : List.lookup a st.cache.data with
      | none =>
        rw [hlk0] at hget
        exact absurd hget (by simp)
      | some v0 =>
        rw [hlk0] at hget
        simp only [Option.some.injEq, Prod.mk.injEq] at hget
        exact hget.2.symm
    have hfst : text_to_speech voices true st a = (.ok v, { st with cache := c1 }) := by
      unfold text_to_speech
      rw [hget]
    have hlk2 : List.lookup a c1.data = some v := by
      rw [hc1]
      exact hlk
    have hget2 : lfuGet c1 a
        = some (v, ⟨c1.data, counterBump c1.counter a, c1.maxsize⟩) := by
      unfold lfuGet
      rw [hlk2]
    have hsnd : text_to_speech voices true ({ st with cache := c1 }) a
        = (.ok v, { st with cache :=
            ⟨c1.data, counterBump c1.counter a, c1.maxsize⟩ }) := by
      unfold text_to_speech
      have hc : ({ st with cache := c1 } : TTSState).cache = c1 := rfl
      rw [hc, hget2]
    refine ⟨v, ?_, ?_, ?_⟩
    · rw [hfst]
    · rw [hfst, hsnd]
    · rw [hfst, hsnd]
  | none =>
    have hknot : a ∉ st.cache.data.map Prod.fst := by
      unfold lfuGet at hget
      cases hlk : List.lookup a st.cache.data with
      | none => exact (lookup_eq_none_iff a _).mp hlk
      | some v0 =>
        rw [hlk] at hget
        exact absurd hget (by simp)
    obtain ⟨c', q', hset, hv', hm', hlen', hlk'⟩ :=
      lfuSet_ok_new_key st.cacheClean st.cache st.queue a st.fresh hv hm hknot
    have hfst : text_to_speech voices true st a =
        (.ok st.fresh,
         ⟨c', q', st.files ++ [st.fresh], st.fresh + 1, st.backendCalls + 1,
          st.cacheClean⟩) := by
      unfold text_to_speech
      rw [hget, if_neg hnv, if_neg hns]
      simp only [Bool.not_true, Bool.false_eq_true, if_false]
      rw [hset]
    have hget2 : lfuGet c' a
        = some (st.fresh, ⟨c'.data, counterBump c'.counter a, c'.maxsize⟩) := by
      unfold lfuGet
      rw [hlk']
    have hsnd : text_to_speech voices true
        (⟨c', q', st.files ++ [st.fresh], st.fresh + 1, st.backendCalls + 1,
          st.cacheClean⟩ : TTSState) a
        = (.ok st.fresh,
           ⟨⟨c'.data, counterBump c'.counter a, c'.maxsize⟩, q',
            st.files ++ [st.fresh], st.fresh + 1, st.backendCalls + 1,
            st.cacheClean⟩) := by
      unfold text_to_speech
      rw [show (⟨c', q', st.files ++ [st.fresh], st.fresh + 1,
            st.backendCalls + 1, st.cacheClean⟩ : TTSState).cache = c' from rfl,
        hget2]
    refine ⟨st.fresh, ?_, ?_, ?_⟩
    · rw [hfst]
    · rw [hfst, hsnd]
    · rw [hfst, hsnd]

/-- C2 witness: the theorem applied at a concrete empty cache and a
concrete request. -/
theorem C2_cache_idempotence_witness :
    ∃ p, (text_to_speech ["Gudrun"] true ⟨⟨[], [], 300⟩, [], [], 0, 0, true⟩
            ⟨"góðan dag", none, none, none, none⟩).1 = .ok p ∧
      (text_to_speech ["Gudrun"] true
          (text_to_speech ["Gudrun"] true ⟨⟨[], [], 300⟩, [], [], 0, 0, true⟩
            ⟨"góðan dag", none, none, none, none⟩).2
          ⟨"góðan dag", none, none, none, none⟩).1 = .ok p ∧
      (text_to_speech ["Gudrun"] true
          (text_to_speech ["Gudrun"] true ⟨⟨[], [], 300⟩, [], [], 0, 0, true⟩
            ⟨"góðan dag", none, none, none, none⟩).2
          ⟨"góðan dag", none, none, none, none⟩).2.backendCalls
        = (text_to_speech ["Gudrun"] true ⟨⟨[], [], 300⟩, [], [], 0, 0, true⟩
            ⟨"góðan dag", none, none, none, none⟩).2.backendCalls :=
  C2_cache_idempotence ["Gudrun"] ⟨⟨[], [], 300⟩, [], [], 0, 0, true⟩
    ⟨"góðan dag", none, none, none, none⟩
    ⟨by decide, by decide, fun _ => Iff.rfl, by decide⟩ (by decide)
    ⟨by decide, by decide, by decide⟩

/-- Only keys with valid arguments ever get stored: entries are inserted
after a successful computation, which presupposes validation passed. -/
def CacheKeysValid (voices : List String) (c : LFUState) : Prop :=
  ∀ k, k ∈ c.data.map Prod.fst → validArgs voices k

/-- C7 counterexample: with a supported voice and an in-range speed, a
repeated request is served from the cache and the backend is *not*
invoked, contradicting the claim that the backend is invoked for every
supported-voice, in-range-speed call. -/
theorem C7_counterexample_cached_call_skips_backend :
    validArgs ["Gudrun"] ⟨"hæ", none, none, none, none⟩ ∧
    (text_to_speech ["Gudrun"] true
        (text_to_speech ["Gudrun"] true ⟨⟨[], [], 300⟩, [], [], 0, 0, true⟩
          ⟨"hæ", none, none, none, none⟩).2
        ⟨"hæ", none, none, none, none⟩).1 = .ok 0 ∧
    (text_to_speech ["Gudrun"] true
        (text_to_speech ["Gudrun"] true ⟨⟨[], [], 300⟩, [], [], 0, 0, true⟩
          ⟨"hæ", none, none, none, none⟩).2
        ⟨"hæ", none, none, none, none⟩).2.backendCalls = 1 :=
  ⟨⟨by decide, by decide, by decide⟩, rfl, rfl⟩

/-- C7 (amended): `text_to_speech` raises a value error before any
backend invocation whenever the requested voice is unsupported or the
speed lies outside [0.5, 2.0] (the state, including the backend call
counter, is exactly the input state); for every supported voice and
in-range speed no error is raised, and the backend is invoked exactly
when the result is not already cached. -/
theorem C7_validation_before_backend :
    ∀ (voices : List String) (backendOk : Bool) (st : TTSState) (a : TTSArgs),
      CacheKeysValid voices st.cache →
      (¬ validArgs voices a →
        text_to_speech voices backendOk st a = (.error .valueError, st)) ∧
      (validArgs voices a → LFUValid st.cache →
        (∃ p, (text_to_speech voices true st a).1 = .ok p) ∧
        (text_to_speech voices true st a).2.backendCalls
          = st.backendCalls + (if lfuGet st.cache a = none then 1 else 0)) := by
  intro voices backendOk st a hck
  constructor
  · intro hinv
    have hknot : a ∉ st.cache.data.map Prod.fst := fun hmem => hinv (hck a hmem)
    have hget : lfuGet st.cache a = none := by
      unfold lfuGet
      rw [(lookup_eq_none_iff a st.cache.data).mpr hknot]
    unfold text_to_speech
    rw [hget]
    by_cases h1 : a.effective.voice ∉ voices
    · rw [if_pos h1]
    · rw [if_neg h1]
      have h2 : a.effective.speed < MIN_SPEED ∨ MAX_SPEED < a.effective.speed := by
        by_contra hd
        push_neg at hd
        exact hinv ⟨by simpa using h1, by
          constructor
          · exact le_of_not_lt (fun hl => absurd hd.1 (by simp [hl]))
          · exact le_of_not_lt (fun hl => absurd hd.2 (by simp [hl]))⟩
      rw [if_pos h2]
  · intro hva hv
    have hnv : ¬ a.effective.voice ∉ voices := by
      simpa using hva.1
    have hns : ¬ (a.effective.speed < MIN_SPEED ∨ MAX_SPEED < a.effective.speed) := by
      rintro (h | h)
      · exact absurd hva.2.1 (not_le.mpr h)
      · exact absurd hva.2.2 (not_le.mpr h)
    cases hget : lfuGet st.cache a with
    | some p0 =>
      rcases p0 with ⟨v, c1⟩
      have hfst : text_to_speech voices true st a
          = (.ok v, { st with cache := c1 }) := by
        unfold text_to_speech
        rw [hget]
      rw [hfst]
      refine ⟨⟨v, rfl⟩, ?_⟩
      simp [hget]
    | none =>
      have hknot : a ∉ st.cache.data.map Prod.fst := by
        unfold lfuGet at hget
        cases hlk : List.lookup a st.cache.data with
        | none => exact (lookup_eq_none_iff a _).mp hlk
        | some v0 =>
          rw [hlk] at hget
          exact absurd hget (by simp)
      by_cases hm : 1 ≤ st.cache.maxsize
      · obtain ⟨c', q', hset, _, _, _, _⟩ :=
          lfuSet_ok_new_key st.cacheClean st.cache st.queue a st.fresh hv hm hknot
        have hfst : text_to_speech voices true st a =
            (.ok st.fresh,
             ⟨c', q', st.files ++ [st.fresh], st.fresh + 1, st.backendCalls + 1,
              st.cacheClean⟩) := by
          unfold text_to_speech
          rw [hget, if_neg hnv, if_neg hns]
          simp only [Bool.not_true, Bool.false_eq_true, if_false]
          rw [hset]
        rw [hfst]
        refine ⟨⟨st.fresh, rfl⟩, ?_⟩
        simp [hget]
      · have h0 : st.cache.maxsize = 0 := by omega
        have hfst : text_to_speech voices true st a =
            (.ok st.fresh,
             ⟨st.cache, st.queue, st.files ++ [st.fresh], st.fresh + 1,
              st.backendCalls + 1, st.cacheClean⟩) := by
          unfold text_to_speech
          rw [hget, if_neg hnv, if_neg hns]
          simp only [Bool.not_true, Bool.false_eq_true, if_false]
          rw [lfuSet_zero_maxsize st.cacheClean st.cache st.queue a st.fresh h0]
        rw [hfst]
        refine ⟨⟨st.fresh, rfl⟩, ?_⟩
        simp [hget]

/-- C7 witness: the theorem applied at an unsupported voice and at a
supported one. -/
theorem C7_validation_before_backend_witness :
    text_to_speech ["Gudrun"] true ⟨⟨[], [], 300⟩, [], [], 0, 0, true⟩
        ⟨"hi", some "Bogus", none, none, none⟩
      = (.error .valueError, ⟨⟨[], [], 300⟩, [], [], 0, 0, true⟩) ∧
    ((∃ p, (text_to_speech ["Gudrun"] true ⟨⟨[], [], 300⟩, [], [], 0, 0, true⟩
        ⟨"hi", none, none, none, none⟩).1 = .ok p) ∧
      (text_to_speech ["Gudrun"] true ⟨⟨[], [], 300⟩, [], [], 0, 0, true⟩
          ⟨"hi", none, none, none, none⟩).2.backendCalls
        = 0 + (if lfuGet ⟨[], [], 300⟩ ⟨"hi", none, none, none, none⟩ = none
               then 1 else 0)) :=
  ⟨(C7_validation_before_backend ["Gudrun"] true
      ⟨⟨[], [], 300⟩, [], [], 0, 0, true⟩ ⟨"hi", some "Bogus", none, none, none⟩
      (fun k hk => absurd hk (by simp))).1
      (fun hva => by
        have := hva.1
        simp [TTSArgs.effective] at this),
   (C7_validation_before_backend ["Gudrun"] true
      ⟨⟨[], [], 300⟩, [], [], 0, 0, true⟩ ⟨"hi", none, none, none, none⟩
      (fun k hk => absurd hk (by simp))).2
      ⟨by decide, by decide, by decide⟩
      ⟨by decide, by decide, fun _ => Iff.rfl, by decide⟩⟩

/-- C9 counterexample: after a failed parse (unclosed greynir tag), the
parser instance's string stack is *not* unchanged — it retains the two
partial buffers — even though the next call resets it. -/
theorem C9_counterexample_stack_retains_buffers :
    (transcribeFrom defaultTranscriber PState.init
        [.starttag "greynir" [("type", some "vbreak")]]).1
      = .error .assertionError ∧
    (transcribeFrom defaultTranscriber PState.init
        [.starttag "greynir" [("type", some "vbreak")]]).2.strStack = ["", ""] ∧
    PState.init.strStack = [] :=
  ⟨rfl, rfl, rfl⟩

/-- C9 (amended): a fatal error aborts only the request that raised it.
The audio cache and its queue are unchanged by any erroring call (no
entry is created); a call with invalid parameters leaves the whole state
untouched; and although a failed parse leaves partial buffers on the
parser's stacks, `transcribe` resets them on entry, so a subsequent
request on the same instance behaves exactly as on any other instance
state — as if the failed request had never happened. -/
theorem C9_error_isolation :
    (∀ (T : Transcriber) (st st' : PState) (evs : List GEvent),
      transcribeFrom T st evs = transcribeFrom T st' evs) ∧
    (∀ (voices : List String) (backendOk : Bool) (st : TTSState) (a : TTSArgs)
        (e : TTSErr),
      (text_to_speech voices backendOk st a).1 = .error e →
      (text_to_speech voices backendOk st a).2.cache = st.cache ∧
      (text_to_speech voices backendOk st a).2.queue = st.queue) ∧
    (∀ (voices : List String) (backendOk : Bool) (st : TTSState) (a : TTSArgs),
      ¬ validArgs voices a → CacheKeysValid voices st.cache →
      (text_to_speech voices backendOk st a).2 = st) := by
  refine ⟨?_, ?_, ?_⟩
  · intro T st st' evs
    unfold transcribeFrom
    rcases hr : feedEvents T initFeedState evs with ⟨s, err⟩
    cases err <;> rfl
  · intro voices backendOk st a e herr
    cases hget : lfuGet st.cache a with
    | some p0 =>
      rcases p0 with ⟨v, c1⟩
      have heq : text_to_speech voices backendOk st a
          = (.ok v, { st with cache := c1 }) := by
        unfold text_to_speech
        rw [hget]
      rw [heq] at herr
      exact absurd herr (by simp)
    | none =>
      by_cases h1 : a.effective.voice ∉ voices
      · have heq : text_to_speech voices backendOk st a
            = (.error .valueError, st) := by
          unfold text_to_speech
          rw [hget, if_pos h1]
        rw [heq]
        exact ⟨rfl, rfl⟩
      · by_cases h2 : a.effective.speed < MIN_SPEED ∨ MAX_SPEED < a.effective.speed
        · have heq : text_to_speech voices backendOk st a
              = (.error .valueError, st) := by
            unfold text_to_speech
            rw [hget, if_neg h1, if_pos h2]
          rw [heq]
          exact ⟨rfl, rfl⟩
        · cases backendOk with
          | false =>
            have heq : text_to_speech voices false st a
                = (.error .backendError,
                   { st with backendCalls := st.backendCalls + 1 }) := by
              unfold text_to_speech
              rw [hget, if_neg h1, if_neg h2]
              simp
            rw [heq]
            exact ⟨rfl, rfl⟩
          | true =>
            cases hset : lfuSet st.cacheClean st.cache st.queue a st.fresh with
            | ok p =>
              rcases p with ⟨c', q'⟩
              have heq : text_to_speech voices true st a
                  = (.ok st.fresh,
                     ⟨c', q', st.files ++ [st.fresh], st.fresh + 1,
                      st.backendCalls + 1, st.cacheClean⟩) := by
                unfold text_to_speech
                rw [hget, if_neg h1, if_neg h2]
                simp only [Bool.not_true, Bool.false_eq_true, if_false]
                rw [hset]
              rw [heq] at herr
              exact absurd herr (by simp)
            | error ce =>
              cases ce with
              | valueTooLarge =>
                have heq : text_to_speech voices true st a
                    = (.ok st.fresh,
                       ⟨st.cache, st.queue, st.files ++ [st.fresh], st.fresh + 1,
                        st.backendCalls + 1, st.cacheClean⟩) := by
                  unfold text_to_speech
                  rw [hget, if_neg h1, if_neg h2]
                  simp only [Bool.not_true, Bool.false_eq_true, if_false]
                  rw [hset]
                rw [heq] at herr
                exact absurd herr (by simp)
              | keyError =>
                have heq : text_to_speech voices true st a
                    = (.error .cacheInternal,
                       ⟨st.cache, st.queue, st.files ++ [st.fresh], st.fresh + 1,
                        st.backendCalls + 1, st.cacheClean⟩) := by
                  unfold text_to_speech
                  rw [hget, if_neg h1, if_neg h2]
                  simp only [Bool.not_true, Bool.false_eq_true, if_false]
                  rw [hset]
                rw [heq]
                exact ⟨rfl, rfl⟩
  · intro voices backendOk st a hinv hck
    have hknot : a ∉ st.cache.data.map Prod.fst := fun hmem => hinv (hck a hmem)
    have hget : lfuGet st.cache a = none := by
      unfold lfuGet
      rw [(lookup_eq_none_iff a st.cache.data).mpr hknot]
    unfold text_to_speech
    rw [hget]
    by_cases h1 : a.effective.voice ∉ voices
    · rw [if_pos h1]
    · rw [if_neg h1]
      have h2 : a.effective.speed < MIN_SPEED ∨ MAX_SPEED < a.effective.speed := by
        by_contra hd
        push_neg at hd
        exact hinv ⟨by simpa using h1,
          le_of_not_lt (fun hl => absurd hd.1 (by simp [hl])),
          le_of_not_lt (fun hl => absurd hd.2 (by simp [hl]))⟩
      rw [if_pos h2]

/-- C9 witness: the theorem applied at concrete erroring calls — an
unsupported voice leaves the state untouched and creates no cache
entry. -/
theorem C9_error_isolation_witness :
    (transcribeFrom defaultTranscriber PState.init [.dataev "já"]
      = transcribeFrom defaultTranscriber ⟨["garbage", "left"], [[]]⟩
          [.dataev "já"]) ∧
    ((text_to_speech ["Gudrun"] true ⟨⟨[], [], 300⟩, [], [], 0, 0, true⟩
        ⟨"x", some "Bogus", none, none, none⟩).2.cache = ⟨[], [], 300⟩ ∧
     (text_to_speech ["Gudrun"] true ⟨⟨[], [], 300⟩, [], [], 0, 0, true⟩
        ⟨"x", some "Bogus", none, none, none⟩).2.queue = []) ∧
    (text_to_speech ["Gudrun"] true ⟨⟨[], [], 300⟩, [], [], 0, 0, true⟩
        ⟨"x", some "Bogus", none, none, none⟩).2
      = ⟨⟨[], [], 300⟩, [], [], 0, 0, true⟩ :=
  ⟨C9_error_isolation.1 defaultTranscriber PState.init
      ⟨["garbage", "left"], [[]]⟩ [.dataev "já"],
   C9_error_isolation.2.1 ["Gudrun"] true ⟨⟨[], [], 300⟩, [], [], 0, 0, true⟩
      ⟨"x", some "Bogus", none, none, none⟩ .valueError rfl,
   C9_error_isolation.2.2 ["Gudrun"] true ⟨⟨[], [], 300⟩, [], [], 0, 0, true⟩
      ⟨"x", some "Bogus", none, none, none⟩
      (fun hva => by
        have := hva.1
        simp [TTSArgs.effective] at this)
      (fun k hk => absurd hk (by simp))⟩

/-- C8 counterexample: the vbreak transformation deliberately emits an
SSML break tag, so its round-trip output contains the markup characters
the claim forbids. -/
theorem C8_counterexample_vbreak_emits_markup :
    (transcribeFrom defaultTranscriber PState.init
        [.startendtag "greynir" [("type", some "vbreak")]]).1
      = .ok "<break />" ∧
    "<break />".data.contains '<' = true ∧
    "<break />".data.contains '>' = true :=
  ⟨rfl, rfl, rfl⟩

/-- C8 (amended): for the text-producing transformation names (number,
float, ordinal, digits, phone, time, date, year), wrapping sample data in
the greynir markup and transcribing yields output with no markup
characters and with the raw data replaced by the transformed text; the
SSML-producing transformations (vbreak, paragraph, sentence) emit exactly
their intended SSML tags, spell embeds timed SSML break tags between the
character pronunciations, and abbrev falls back to spelling (with SSML
breaks) for input that is not all-lowercase but returns an unknown
all-lowercase abbreviation unchanged, with no SSML; in every case the
greynir markup itself is gone. -/
theorem C8_tag_round_trip :
    ((transcribeFrom defaultTranscriber PState.init
        [.starttag "greynir" [("type", some "number")], .dataev "5",
         .endtag "greynir"]).1 = .ok "Fimm" ∧
      "Fimm".data.contains '<' = false ∧ "Fimm".data.contains '>' = false ∧
      "Fimm".data.contains '5' = false) ∧
    ((transcribeFrom defaultTranscriber PState.init
        [.starttag "greynir" [("type", some "number"), ("gender", some "kvk")],
         .dataev "4", .endtag "greynir"]).1 = .ok "Fjórar" ∧
      "Fjórar".data.contains '4' = false) ∧
    ((transcribeFrom defaultTranscriber PState.init
        [.starttag "greynir" [("type", some "digits")], .dataev "112",
         .endtag "greynir"]).1 = .ok "Einn einn tveir" ∧
      "Einn einn tveir".data.contains '<' = false ∧
      "Einn einn tveir".data.contains '1' = false ∧
      "Einn einn tveir".data.contains '2' = false) ∧
    ((transcribeFrom defaultTranscriber PState.init
        [.starttag "greynir" [("type", some "phone")], .dataev "5885522",
         .endtag "greynir"]).1 = .ok "Fimm átta átta fimm fimm tveir tveir" ∧
      "Fimm átta átta fimm fimm tveir tveir".data.contains '<' = false ∧
      "Fimm átta átta fimm fimm tveir tveir".data.contains '5' = false) ∧
    ((transcribeFrom defaultTranscriber PState.init
        [.starttag "greynir" [("type", some "time")], .dataev "12:00",
         .endtag "greynir"]).1 = .ok "Tólf á hádegi" ∧
      "Tólf á hádegi".data.contains '<' = false ∧
      "Tólf á hádegi".data.contains '1' = false ∧
      "Tólf á hádegi".data.contains '2' = false) ∧
    ((transcribeFrom defaultTranscriber PState.init
        [.starttag "greynir" [("type", some "year")], .dataev "1999",
         .endtag "greynir"]).1 = .ok "Nítján hundruð níutíu og níu" ∧
      "Nítján hundruð níutíu og níu".data.contains '<' = false ∧
      "Nítján hundruð níutíu og níu".data.contains '9' = false) ∧
    ((transcribeFrom defaultTranscriber PState.init
        [.starttag "greynir" [("type", some "float")], .dataev "2,5",
         .endtag "greynir"]).1 = .ok "Tvö komma fimm" ∧
      "Tvö komma fimm".data.contains '<' = false ∧
      "Tvö komma fimm".data.contains '2' = false ∧
      "Tvö komma fimm".data.contains '5' = false) ∧
    ((transcribeFrom defaultTranscriber PState.init
        [.starttag "greynir" [("type", some "ordinal"), ("gender", some "kvk")],
         .dataev "302", .endtag "greynir"]).1
        = .ok "Þrjú hundraðasta og önnur" ∧
      "Þrjú hundraðasta og önnur".data.contains '<' = false ∧
      "Þrjú hundraðasta og önnur".data.contains '3' = false ∧
      "Þrjú hundraðasta og önnur".data.contains '0' = false ∧
      "Þrjú hundraðasta og önnur".data.contains '2' = false) ∧
    ((transcribeFrom defaultTranscriber PState.init
        [.starttag "greynir" [("type", some "date")], .dataev "2000-01-01",
         .endtag "greynir"]).1 = .ok "Fyrsti janúar tvö þúsund" ∧
      "Fyrsti janúar tvö þúsund".data.contains '<' = false ∧
      "Fyrsti janúar tvö þúsund".data.contains '2' = false ∧
      "Fyrsti janúar tvö þúsund".data.contains '0' = false ∧
      "Fyrsti janúar tvö þúsund".data.contains '1' = false) ∧
    ((transcribeFrom defaultTranscriber PState.init
        [.starttag "greynir" [("type", some "spell")], .dataev "hæ",
         .endtag "greynir"]).1
        = .ok "<break time=\"10ms\" />há<break time=\"20ms\" />æ<break time=\"20ms\" />" ∧
      ("<break time=\"10ms\" />há<break time=\"20ms\" />æ<break time=\"20ms\" />").data.contains
        '<' = true) ∧
    ((transcribeFrom defaultTranscriber PState.init
        [.starttag "greynir" [("type", some "abbrev")], .dataev "MSc",
         .endtag "greynir"]).1
        = .ok "<break time=\"10ms\" />emm<break time=\"20ms\" />ess<break time=\"20ms\" />sé<break time=\"20ms\" />" ∧
      ("<break time=\"10ms\" />emm<break time=\"20ms\" />ess<break time=\"20ms\" />sé<break time=\"20ms\" />").data.contains
        '<' = true) ∧
    ((transcribeFrom defaultTranscriber PState.init
        [.starttag "greynir" [("type", some "abbrev")], .dataev "cand.med.",
         .endtag "greynir"]).1 = .ok "Cand.med." ∧
      "Cand.med.".data.contains '<' = false ∧
      "Cand.med.".data.contains '>' = false) ∧
    ((transcribeFrom defaultTranscriber PState.init
        [.startendtag "greynir" [("type", some "vbreak")]]).1
        = .ok "<break />" ∧
     (transcribeFrom defaultTranscriber PState.init
        [.starttag "greynir" [("type", some "paragraph")], .dataev "texti",
         .endtag "greynir"]).1 = .ok "<p>texti</p>" ∧
     (transcribeFrom defaultTranscriber PState.init
        [.starttag "greynir" [("type", some "sentence")], .dataev "texti",
         .endtag "greynir"]).1 = .ok "<s>texti</s>") ∧
    ((transcribeFrom defaultTranscriber PState.init
        [.starttag "bla" [("attr", some "fad")],
         .startendtag "greynir" [("type", some "vbreak")], .dataev " ",
         .starttag "greynir" [("type", some "number"), ("gender", some "kvk")],
         .dataev "4", .endtag "greynir"]).1 = .ok "<break /> fjórar") := by
  refine ⟨⟨rfl, rfl, rfl, rfl⟩, ⟨rfl, rfl⟩, ⟨rfl, rfl, rfl, rfl⟩,
    ⟨rfl, rfl, rfl⟩, ⟨rfl, rfl, rfl, rfl⟩, ⟨rfl, rfl, rfl⟩,
    ⟨rfl, rfl, rfl, rfl⟩, ⟨rfl, rfl, rfl, rfl, rfl⟩, ⟨rfl, rfl, rfl, rfl, rfl⟩,
    ⟨rfl, rfl⟩, ⟨rfl, rfl⟩, ⟨rfl, rfl, rfl⟩, ⟨rfl, rfl, rfl⟩, rfl⟩
